import Mathlib

/-!
Verification of the smoldot single-stream connection driver
(`src/lib/src/libp2p/connection/established/single_stream.rs`), the
multiaddress parser (`src/light-base/src/platform/address_parse.rs`) and the
wasm-node platform stream queue (`src/wasm-node/rust/src/platform.rs`).

The driver in `single_stream.rs` is transcribed faithfully.  Its
collaborators (the `noise`, `yamux` and `substream` modules, the `ReadWrite`
scratchpad and the `Event` type of `established/mod.rs`) are not part of the
sources under verification; they are modelled from the specification's
contracts (spec sections 4.1 to 4.4 and 6), as noted on each definition.

Machine integers: `TNow` is modelled as `Nat` (a totally ordered clock with
addition of durations), `usize` and `u64` as `Nat` with explicit saturation
at `2^64 - 1` where the source saturates.
-/

namespace Smoldot

/-- Bytes are modelled as lists of naturals (each standing for one octet). -/
abbrev Bytes := List Nat

/-- Maximum value of `u64` (and of `usize`, the target being 64-bit). -/
def U64MAX : Nat := 2 ^ 64 - 1

/-- Maximum value of `usize` (`usize::max_value()` in the source). -/
def USIZEMAX : Nat := 2 ^ 64 - 1

/-- Saturating addition on `u64` values. -/
def satAdd64 (a b : Nat) : Nat := min (a + b) U64MAX

/-- Saturating subtraction on `u64` values (`Nat` subtraction is already
truncated at zero, which coincides with `u64::saturating_sub`). -/
def satSub64 (a b : Nat) : Nat := a - b

/-! ## The read/write scratchpad

Modelled from the spec: section 4.1 describes the caller-owned `ReadWrite`
object of the `read_write` module, which is not among the sources under
verification.  Fields and operations follow the spec's list. -/

/-- Modelled from the spec: the `ReadWrite` scratchpad of section 4.1.
`now` is the clock, `incoming_buffer` the bytes still to be consumed,
`expected_incoming_bytes = none` means the read side is closed,
`write_bytes_queueable = none` means the write side is closed,
`wake_up_after` is the optional earliest-wakeup deadline. -/
structure RW where
  now : Nat
  incoming_buffer : Bytes
  expected_incoming_bytes : Option Nat
  write_buffers : List Bytes
  write_bytes_queued : Nat
  write_bytes_queueable : Option Nat
  read_bytes : Nat
  wake_up_after : Option Nat
  deriving Repr, DecidableEq

/-- Modelled from the spec: `request-wakeup-at(t)` "sets to min of existing
and t". -/
def RW.wakeUpAfter (rw : RW) (t : Nat) : RW :=
  { rw with
    wake_up_after :=
      some (match rw.wake_up_after with
            | none => t
            | some u => min u t) }

/-- Modelled from the spec: `request-wakeup-asap`, a wakeup at the current
clock value. -/
def RW.wakeUpAsap (rw : RW) : RW := rw.wakeUpAfter rw.now

/-- Modelled from the spec: `close-write` "sets queueable to None". -/
def RW.closeWrite (rw : RW) : RW := { rw with write_bytes_queueable := none }

/-- Modelled from the spec: `consume-n-bytes-from-incoming`
(`incoming_bytes_take` in the source): removes `n` bytes from the front of
the incoming buffer and accounts them in `read_bytes`. -/
def RW.incomingBytesTake (rw : RW) (n : Nat) : RW :=
  { rw with
    incoming_buffer := rw.incoming_buffer.drop n
    read_bytes := rw.read_bytes + n }

/-- Modelled from the spec: `append-to-write-queue` (`write_out` in the
source): appends a chunk to the outbound queue, accounting its length. -/
def RW.writeOut (rw : RW) (buf : Bytes) : RW :=
  { rw with
    write_buffers := rw.write_buffers ++ [buf]
    write_bytes_queued := rw.write_bytes_queued + buf.length
    write_bytes_queueable := rw.write_bytes_queueable.map (· - buf.length) }

/-! ## The yamux layer

Modelled from the spec: section 4.3 gives the contract of the `yamux`
module, which is not among the sources under verification.  The
frame-decoding behaviour of `incoming_data` is inherently dependent on the
network bytes; it is modelled by a script carried in the state: each call to
`incomingData` pops the next scripted `(bytes_read, detail)` outcome,
clamping `bytes_read` to the size of the offered buffer. -/

/-- Modelled from the spec: the death type of a dead substream
(`yamux::DeadSubstreamTy`). -/
inductive DeadTy
  | reset
  | closedGracefully
  deriving Repr, DecidableEq

/-- Modelled from the spec: the `detail` outcomes of
`yamux.incoming_data` listed in section 4.3. -/
inductive Detail
  | incomingSubstream
  | dataFrame (startOffset : Nat) (substreamId : Nat)
  | streamReset (substreamId : Nat)
  | streamClosed (substreamId : Nat)
  | goAway (code : Nat)
  | pingResponse
  deriving Repr, DecidableEq

/-- Modelled from the spec: one scripted outcome of
`yamux.incoming_data`: either a successful decode of a prefix together with
an optional detail, or a malformed frame (fatal `Error::Yamux`). -/
inductive ScriptStep
  | ok (bytesRead : Nat) (detail : Option Detail)
  | fail
  deriving Repr, DecidableEq

/-- Modelled from the spec: one substream entry of the yamux state machine:
its driver-owned user data (the substream slot), whether it was
remote-initiated, whether each direction is still open, the peer's
flow-control window, the bytes queued for sending, and whether the
substream is dead and why. -/
structure YSub (A : Type) where
  ud : A
  inbound : Bool
  canReceive : Bool
  canSend : Bool
  remoteWindow : Nat
  queuedBytes : Nat
  dead : Option DeadTy
  deriving Repr, DecidableEq

/-- Modelled from the spec: the yamux multiplexer state of section 4.3.
Substreams are an association list keyed by substream id. `outQueue` holds
the outbound frame chunks that `extract_next` yields. `script` drives
`incomingData` (see above). -/
structure Ymx (A : Type) where
  substreams : List (Nat × YSub A)
  nextId : Nat
  goawaySentFlag : Bool
  goawayQueuedFlag : Bool
  receivedGoawayCode : Option Nat
  pendingIncoming : Bool
  outQueue : List Bytes
  script : List ScriptStep
  deriving Repr, DecidableEq

namespace Ymx

variable {A : Type}

/-- Modelled from the spec: `has_substream(id)`. -/
def hasSubstream (y : Ymx A) (id : Nat) : Bool :=
  (y.substreams.lookup id).isSome

/-- Modelled from the spec: `user_data(id)`, `none` when the id is unknown
(the source panics in that case). -/
def userData (y : Ymx A) (id : Nat) : Option A :=
  (y.substreams.lookup id).map YSub.ud

/-- Point update of the substream entry with the given id (all
substream-level mutations of the yamux contract factor through this). -/
def mapSub (y : Ymx A) (id : Nat) (g : YSub A → YSub A) : Ymx A :=
  { y with
    substreams := y.substreams.map fun p =>
      if p.1 = id then (p.1, g p.2) else p }

/-- Modelled from the spec: writing through `user_data_mut(id)`: replace the
user data of substream `id`, leaving the state unchanged when the id is
unknown. -/
def setUserData (y : Ymx A) (id : Nat) (a : A) : Ymx A :=
  y.mapSub id fun s => { s with ud := a }

/-- Modelled from the spec: `num_inbound()`, the number of inbound
substreams (including dead not-yet-removed ones, as the source notes). -/
def numInbound (y : Ymx A) : Nat :=
  (y.substreams.filter fun p => p.2.inbound).length

/-- Modelled from the spec: `is_empty()`. -/
def isEmpty (y : Ymx A) : Bool := y.substreams.isEmpty

/-- Modelled from the spec: `goaway_queued_or_sent()`. -/
def goawayQueuedOrSent (y : Ymx A) : Bool :=
  y.goawayQueuedFlag || y.goawaySentFlag

/-- Modelled from the spec: `can_receive(id)`: whether data from the remote
on this substream is still expected (false for unknown ids). -/
def canReceive (y : Ymx A) (id : Nat) : Bool :=
  match y.substreams.lookup id with
  | some s => s.canReceive && s.dead.isNone
  | none => false

/-- Modelled from the spec: `can_send(id)`: whether data can still be queued
on this substream (false for unknown ids). -/
def canSend (y : Ymx A) (id : Nat) : Bool :=
  match y.substreams.lookup id with
  | some s => s.canSend && s.dead.isNone
  | none => false

/-- Modelled from the spec: the initial flow-control window credited to a
newly opened substream.  Its concrete value is fixed by the yamux protocol,
not by the spec; any value works for the claims below. -/
def INITIAL_WINDOW : Nat := 256 * 1024

/-- Modelled from the spec: `accept_pending_substream(user_data)`: accepts
the pending inbound substream, creating a fresh inbound entry; `none` (a
panic in the source) when no substream is pending. -/
def acceptPendingSubstream (y : Ymx A) (a : A) : Option (Ymx A) :=
  if y.pendingIncoming then
    some { y with
           pendingIncoming := false
           substreams := y.substreams ++
             [(y.nextId,
               { ud := a, inbound := true, canReceive := true,
                 canSend := true, remoteWindow := INITIAL_WINDOW,
                 queuedBytes := 0, dead := none })]
           nextId := y.nextId + 1 }
  else none

/-- Modelled from the spec: `reject_pending_substream()`: rejects the
pending inbound substream; `none` (a panic in the source) when no substream
is pending. -/
def rejectPendingSubstream (y : Ymx A) : Option (Ymx A) :=
  if y.pendingIncoming then some { y with pendingIncoming := false }
  else none

/-- Modelled from the spec: `open_substream(user_data)`: opens a fresh
outbound substream; fails (`none`) when a GoAway has been received. -/
def openSubstream (y : Ymx A) (a : A) : Option (Nat × Ymx A) :=
  if y.receivedGoawayCode.isSome then none
  else
    some (y.nextId,
      { y with
        substreams := y.substreams ++
          [(y.nextId,
            { ud := a, inbound := false, canReceive := true,
              canSend := true, remoteWindow := INITIAL_WINDOW,
              queuedBytes := 0, dead := none })]
        nextId := y.nextId + 1 })

/-- Modelled from the spec: `add_remote_window_saturating(id, bytes)`:
extend the peer's flow-control credit, saturating at the `u64` maximum. -/
def addRemoteWindowSaturating (y : Ymx A) (id : Nat) (n : Nat) : Ymx A :=
  y.mapSub id fun s => { s with remoteWindow := satAdd64 s.remoteWindow n }

/-- Modelled from the spec: `write(id, chunk)`: queue outbound data on a
substream; `none` (an error, unwrapped in the source) for unknown ids. -/
def write (y : Ymx A) (id : Nat) (buf : Bytes) : Option (Ymx A) :=
  if y.hasSubstream id then
    some { y.mapSub id (fun s => { s with queuedBytes := s.queuedBytes + buf.length }) with
           outQueue := y.outQueue ++ [buf] }
  else none

/-- Modelled from the spec: `close(id)`: close the local writing side of a
substream; the substream dies gracefully when both sides are then closed;
`none` (an error, unwrapped in the source) for unknown ids. -/
def close (y : Ymx A) (id : Nat) : Option (Ymx A) :=
  if y.hasSubstream id then
    some (y.mapSub id fun s =>
      { s with
        canSend := false
        dead := if s.canReceive then s.dead
                else some (s.dead.getD DeadTy.closedGracefully) })
  else none

/-- Modelled from the spec: `reset(id)`: abruptly terminate a substream;
`none` (an error, unwrapped in the source) for unknown ids. -/
def reset (y : Ymx A) (id : Nat) : Option (Ymx A) :=
  if y.hasSubstream id then
    some (y.mapSub id fun s =>
      { s with
        canSend := false, canReceive := false,
        dead := some DeadTy.reset })
  else none

/-- Modelled from the spec: `dead_substreams()`: the ids of dead,
not-yet-removed substreams together with their death type. -/
def deadSubstreams (y : Ymx A) : List (Nat × DeadTy) :=
  y.substreams.filterMap fun p => p.2.dead.map fun ty => (p.1, ty)

/-- Modelled from the spec: `remove_dead_substream(id)`: removes the
substream entry and returns its user data (`none` when already removed). -/
def removeDeadSubstream (y : Ymx A) (id : Nat) : Option A × Ymx A :=
  (y.substreams.lookup id |>.map YSub.ud,
   { y with substreams := y.substreams.filter fun p => p.1 ≠ id })

/-- Modelled from the spec: `queued_bytes(id)`. -/
def queuedBytes (y : Ymx A) (id : Nat) : Nat :=
  match y.substreams.lookup id with
  | some s => s.queuedBytes
  | none => 0

/-- Modelled from the spec: the state-machine side of
`incoming_data(bytes)`: applies the scripted detail's effect on the
substream table (mark a pending inbound substream, mark resets and closes,
record a received GoAway). -/
def applyDetail (y : Ymx A) (d : Option Detail) : Ymx A :=
  match d with
  | none => y
  | some Detail.incomingSubstream => { y with pendingIncoming := true }
  | some (Detail.dataFrame _ _) => y
  | some (Detail.streamReset id) =>
      y.mapSub id fun s =>
        { s with
          canSend := false, canReceive := false,
          dead := some DeadTy.reset }
  | some (Detail.streamClosed id) =>
      y.mapSub id fun s =>
        { s with
          canReceive := false
          dead := if s.canSend then s.dead
                  else some (s.dead.getD DeadTy.closedGracefully) }
  | some (Detail.goAway code) => { y with receivedGoawayCode := some code }
  | some Detail.pingResponse => y

/-- Modelled from the spec: `incoming_data(bytes)` of section 4.3: decode a
prefix of `bytes`, returning how many bytes were read, an optional detail
and the updated multiplexer, or a fatal error on a malformed frame.  The
decode outcome itself is drawn from the script; `bytes_read` is clamped to
the buffer size. -/
def incomingData (y : Ymx A) (buf : Bytes) :
    Except Unit (Nat × Option Detail × Ymx A) :=
  match y.script with
  | [] => Except.ok (0, none, y)
  | ScriptStep.fail :: rest => (fun _ => Except.error ()) rest
  | ScriptStep.ok n d :: rest =>
      let n := min n buf.length
      Except.ok (n, d, applyDetail { y with script := rest } d)

/-- Modelled from the spec: `extract_next(max_bytes)`: pull the next
outbound chunk, truncated to `max_bytes`; nothing when `max_bytes` is zero
or no data is queued. -/
def extractNext (y : Ymx A) (maxBytes : Nat) : Option (Bytes × Ymx A) :=
  match y.outQueue with
  | [] => none
  | c :: rest =>
      if maxBytes = 0 then none
      else if c.length ≤ maxBytes then some (c, { y with outQueue := rest })
      else some (c.take maxBytes, { y with outQueue := c.drop maxBytes :: rest })

end Ymx

/-! ## Substream identifiers and events

`SubstreamId`, `SubstreamIdInner` and `Event` live in
`established/mod.rs`, which is not among the sources under verification;
they are modelled from the spec's section 6 event taxonomy and from the
constructions in `pass_through_substream_event`. -/

/-- Mirror of `SubstreamIdInner` (only the single-stream variant is used by
`single_stream.rs`). -/
inductive SubstreamIdInner
  | singleStream (id : Nat)
  deriving Repr, DecidableEq

/-- Mirror of `SubstreamId`: an opaque wrapper around
`SubstreamIdInner`. -/
structure SubstreamId where
  val : SubstreamIdInner
  deriving Repr, DecidableEq

/-- The `SubstreamId(SubstreamIdInner::SingleStream(id))` wrapping used
throughout `single_stream.rs`. -/
def sid (id : Nat) : SubstreamId := ⟨SubstreamIdInner.singleStream id⟩

/-- Decidable equality for `Except`, needed to derive it for the event
types below. -/
instance {ε α : Type} [DecidableEq ε] [DecidableEq α] :
    DecidableEq (Except ε α) := fun a b =>
  match a, b with
  | Except.ok x, Except.ok y =>
      if h : x = y then isTrue (by simp [h]) else isFalse (by simp [h])
  | Except.error x, Except.error y =>
      if h : x = y then isTrue (by simp [h]) else isFalse (by simp [h])
  | Except.ok _, Except.error _ => isFalse (by simp)
  | Except.error _, Except.ok _ => isFalse (by simp)

/-- Modelled from the spec: the raw events of the substream sub-protocol
state machine (`substream::Event`, section 4.4).  Opaque payloads (errors,
close outcomes) are modelled as naturals; byte payloads as `Bytes`. -/
inductive SubEvent
  | inboundError (error : Nat) (wasAccepted : Bool)
  | inboundNegotiated (protocolName : String)
  | inboundNegotiatedCancel
  | requestIn (request : Bytes)
  | response (response : Bytes)
  | notificationsInOpen (handshake : Bytes)
  | notificationsInOpenCancel
  | notificationIn (notification : Bytes)
  | notificationsInClose (outcome : Option Nat)
  | notificationsOutResult (result : Except Nat Bytes)
  | notificationsOutCloseDemanded
  | notificationsOutReset
  | pingOutSuccess
  | pingOutError
  deriving Repr, DecidableEq

/-- Modelled from the spec: the public `Event` taxonomy of section 6,
parameterised by the user-data type, as constructed by
`pass_through_substream_event`. -/
inductive Event (U : Type)
  | newOutboundSubstreamsForbidden
  | inboundError (error : Nat)
  | inboundAcceptedCancel (id : SubstreamId) (userData : U)
  | inboundNegotiated (id : SubstreamId) (protocolName : String)
  | inboundNegotiatedCancel (id : SubstreamId)
  | requestIn (id : SubstreamId) (request : Bytes)
  | response (id : SubstreamId) (response : Bytes) (userData : U)
  | notificationsInOpen (id : SubstreamId) (handshake : Bytes)
  | notificationsInOpenCancel (id : SubstreamId)
  | notificationIn (id : SubstreamId) (notification : Bytes)
  | notificationsInClose (id : SubstreamId) (outcome : Option Nat) (userData : U)
  | notificationsOutResult (id : SubstreamId) (result : Except (Nat × U) Bytes)
  | notificationsOutCloseDemanded (id : SubstreamId)
  | notificationsOutReset (id : SubstreamId) (userData : U)
  | pingOutSuccess
  | pingOutFailed
  deriving Repr, DecidableEq

/-- Transcription of `SingleStream::pass_through_substream_event`
(single_stream.rs lines 577 to 649): translate a raw substream event into a
public event.  The source takes `&mut Option<TSubUd>` and calls
`take().unwrap()` on the variants that relinquish user data; the returned
`Option` is `none` exactly when that unwrap would have panicked, and the
second component is the user-data slot after the call. -/
def passThrough {U : Type} (id : Nat) (ud : Option U) (ev : SubEvent) :
    Option (Event U × Option U) :=
  match ev with
  | SubEvent.inboundError e false => some (Event.inboundError e, ud)
  | SubEvent.inboundError _ true =>
      (ud.map fun u => (Event.inboundAcceptedCancel (sid id) u, none))
  | SubEvent.inboundNegotiated name =>
      some (Event.inboundNegotiated (sid id) name, ud)
  | SubEvent.inboundNegotiatedCancel =>
      some (Event.inboundNegotiatedCancel (sid id), ud)
  | SubEvent.requestIn request => some (Event.requestIn (sid id) request, ud)
  | SubEvent.response response =>
      (ud.map fun u => (Event.response (sid id) response u, none))
  | SubEvent.notificationsInOpen handshake =>
      some (Event.notificationsInOpen (sid id) handshake, ud)
  | SubEvent.notificationsInOpenCancel =>
      some (Event.notificationsInOpenCancel (sid id), ud)
  | SubEvent.notificationIn notification =>
      some (Event.notificationIn (sid id) notification, ud)
  | SubEvent.notificationsInClose outcome =>
      (ud.map fun u => (Event.notificationsInClose (sid id) outcome u, none))
  | SubEvent.notificationsOutResult (Except.ok r) =>
      some (Event.notificationsOutResult (sid id) (Except.ok r), ud)
  | SubEvent.notificationsOutResult (Except.error e) =>
      (ud.map fun u =>
        (Event.notificationsOutResult (sid id) (Except.error (e, u)), none))
  | SubEvent.notificationsOutCloseDemanded =>
      some (Event.notificationsOutCloseDemanded (sid id), ud)
  | SubEvent.notificationsOutReset =>
      (ud.map fun u => (Event.notificationsOutReset (sid id) u, none))
  | SubEvent.pingOutSuccess => some (Event.pingOutSuccess, ud)
  | SubEvent.pingOutError => some (Event.pingOutFailed, ud)

/-- Lifts `passThrough` over an optional event (`event.map(|ev| ...)` in the
source); `none` when the translation would have panicked. -/
def translateEvent {U : Type} (id : Nat) (ud : Option U)
    (ev : Option SubEvent) : Option (Option (Event U) × Option U) :=
  match ev with
  | none => some (none, ud)
  | some e => (passThrough id ud e).map fun p => (some p.1, p.2)

/-! ## The substream sub-protocol abstraction

Modelled from the spec: section 4.4 describes the per-substream state
machine (`substream::Substream`), which is not among the sources under
verification.  The driver only needs its operations, so the machine is kept
abstract: a `SubstreamOps` bundle supplies an arbitrary implementation over
an arbitrary state type, and theorems about the driver quantify over it. -/

/-- Modelled from the spec: the operations of the substream sub-protocol
state machine used by `single_stream.rs`.  `readWrite` takes the machine
and a scratchpad and yields the updated scratchpad, the next state
(`none` when terminated) and an optional raw event; `resetSM` is the
`reset()` transition yielding a final event; the remaining fields are the
constructors `ingoing`, `request_out`, `notifications_out`, `ping_out` and
the caller-driven transition `queue_ping`. -/
structure SubstreamOps (S : Type) where
  readWrite : S → RW → RW × Option S × Option SubEvent
  resetSM : S → Option SubEvent
  ingoing : Nat → S
  requestOut : String → Nat → Option Bytes → Nat → S
  notificationsOut : Nat → String → Bytes → Nat → S
  pingOut : String → S
  queuePing : S → Bytes → Nat → S

/-- The substream slot held by the driver for each yamux substream: the
state machine, the optional user-data handle and the inbound plaintext
buffer — or `none` when the machine has been extracted
(`Option<(substream::Substream<TNow>, Option<TSubUd>, Vec<u8>)>`). -/
abbrev Slot (S U : Type) := Option (S × Option U × Bytes)

/-- The `Inner` structure of `single_stream.rs` (lines 80 to 117): the
yamux state machine over substream slots, the substream-to-process
pointer, the outgoing-ping substream id, the next-ping deadline, the ping
payload randomness (modelled as a counter-indexed stream of payloads) and
the configured limits. -/
structure Inner (S U : Type) where
  yamux : Ymx (Slot S U)
  substreamToProcess : Option Nat
  outgoingPings : Nat
  nextPing : Nat
  pingRng : Nat → Bytes
  pingRngCounter : Nat
  maxInboundSubstreams : Nat
  maxProtocolNameLen : Nat
  pingInterval : Nat
  pingTimeout : Nat

/-- The fatal error taxonomy of `single_stream.rs` (lines 1040 to 1052).
The noise layer is modelled as a pass-through view, so only the yamux
variant can arise in the model. -/
inductive DriverError
  | noise
  | noiseEncrypt
  | yamuxErr
  deriving Repr, DecidableEq

/-- Result of one `read_write` invocation of the model: a normal return
with the updated state, scratchpad and optional event; a fatal error
(which consumes the connection but leaves the caller's scratchpad); a
panicked execution (an `unwrap`/`unreachable` of the source fired); or
fuel exhaustion of the bounded main loop. -/
inductive Outcome (S U : Type)
  | ok (inner : Inner S U) (rw : RW) (ev : Option (Event U))
  | fatal (rw : RW) (e : DriverError)
  | panicked
  | outOfFuel (inner : Inner S U) (rw : RW)

/-! ## `SingleStream::process_substream` (single_stream.rs lines 498 to 574) -/

/-- The per-substream scratchpad built by `process_substream`
(single_stream.rs lines 512 to 525): clock copied, incoming buffer set to
the slot's accumulated plaintext, `expected_incoming_bytes = Some(0)` iff
the read side is open, `write_bytes_queueable = Some(usize::MAX)` iff the
write side is open. -/
def mkSubstreamRW (now : Nat) (readIsClosed writeIsClosed : Bool)
    (buf : Bytes) : RW :=
  { now := now
    expected_incoming_bytes := if !readIsClosed then some 0 else none
    incoming_buffer := buf
    read_bytes := 0
    write_buffers := []
    write_bytes_queued := 0
    write_bytes_queueable := if writeIsClosed then none else some USIZEMAX
    wake_up_after := none }

/-- The write-buffer forwarding loop of `process_substream`
(single_stream.rs lines 541 to 547): each non-empty buffer produced by the
substream machine is forwarded to `yamux.write(id, ...)`, whose error is
unwrapped (`none` here). -/
def writeBuffers {A : Type} (y : Ymx A) (id : Nat) :
    List Bytes → Option (Ymx A)
  | [] => some y
  | b :: rest =>
      if b.isEmpty then writeBuffers y id rest
      else
        match y.write id b with
        | none => none
        | some y' => writeBuffers y' id rest

/-- Transcription of `SingleStream::process_substream` (single_stream.rs
lines 498 to 574).  Returns `none` when an `unwrap` of the source would
have panicked; otherwise the updated state, the updated outer scratchpad,
the `call_again` flag and the optional translated event. -/
def processSubstream {S U : Type} (ops : SubstreamOps S) (inner : Inner S U)
    (rw : RW) (id : Nat) :
    Option (Inner S U × RW × Bool × Option (Event U)) :=
  match inner.yamux.userData id with
  | none => none
  | some none => some (inner, rw, false, none)
  | some (some (sm, ud, buf)) =>
      let y0 := inner.yamux.setUserData id none
      let readIsClosed := !(y0.canReceive id)
      let writeIsClosed := !(y0.canSend id)
      let rwSub := mkSubstreamRW rw.now readIsClosed writeIsClosed buf
      let step := ops.readWrite sm rwSub
      let rwSub' := step.1
      let next := step.2.1
      let ev := step.2.2
      let rw' :=
        match rwSub'.wake_up_after with
        | some t => rw.wakeUpAfter t
        | none => rw
      let y1 := y0.addRemoteWindowSaturating id rwSub'.read_bytes
      let closedAfter := rwSub'.write_bytes_queueable.isNone
      match writeBuffers y1 id rwSub'.write_buffers with
      | none => none
      | some y2 =>
          match (if !writeIsClosed && closedAfter then y2.close id
                 else some y2) with
          | none => none
          | some y3 =>
              match translateEvent id ud ev with
              | none => none
              | some (evT, ud') =>
                  let y4? :=
                    match next with
                    | some s' =>
                        some (y3.setUserData id
                          (some (s', ud', rwSub'.incoming_buffer)))
                    | none =>
                        if !closedAfter || !readIsClosed then y3.reset id
                        else some y3
                  match y4? with
                  | none => none
                  | some y4 =>
                      let callAgain :=
                        decide (rwSub'.read_bytes ≠ 0) ||
                        decide (rwSub'.write_bytes_queued ≠ 0) || evT.isSome
                      some ({ inner with yamux := y4 }, rw', callAgain, evT)

/-! ## The pre-flush pass and ping scheduling
(single_stream.rs lines 137 to 175) -/

/-- The substream pre-flush pass of `read_write` (single_stream.rs lines
139 to 153): process every currently-known substream id; return the first
event immediately; request an immediate wake-up for substreams asking to be
called again. -/
def preFlush {S U : Type} (ops : SubstreamOps S) (inner : Inner S U)
    (rw : RW) : List Nat →
    Option ((Inner S U × RW) ⊕ (Inner S U × RW × Event U))
  | [] => some (Sum.inl (inner, rw))
  | id :: rest =>
      match processSubstream ops inner rw id with
      | none => none
      | some (inner', rw', callAgain, some e) =>
          (fun _ _ _ => some (Sum.inr (inner', rw', e))) rest callAgain ()
      | some (inner', rw', callAgain, none) =>
          preFlush ops inner' (if callAgain then rw'.wakeUpAsap else rw') rest

/-- Result of the ping-scheduling step: either the early
`Event::PingOutFailed` return, or continuation into the main loop. -/
inductive PingStepResult (S U : Type)
  | failed (inner : Inner S U) (rw : RW)
  | proceed (inner : Inner S U) (rw : RW)

/-- Transcription of the ping-scheduling step of `read_write`
(single_stream.rs lines 155 to 175): when `now >= next_ping`, advance
`next_ping` to `now + ping_interval`; if the outgoing-ping substream is
still known to yamux, draw a payload from the ping randomness and queue a
ping with deadline `now + ping_timeout`; otherwise return
`Event::PingOutFailed` immediately (skipping the wake-up registration).
In all non-returning paths, register a wake-up at `next_ping`. -/
def pingStep {S U : Type} (ops : SubstreamOps S) (inner : Inner S U)
    (rw : RW) : Option (PingStepResult S U) :=
  if inner.nextPing ≤ rw.now then
    let inner1 : Inner S U := { inner with nextPing := rw.now + inner.pingInterval }
    if inner1.yamux.hasSubstream inner1.outgoingPings then
      let payload := inner1.pingRng inner1.pingRngCounter
      let inner2 : Inner S U := { inner1 with pingRngCounter := inner1.pingRngCounter + 1 }
      match inner2.yamux.userData inner2.outgoingPings with
      | some (some (sm, ud, buf)) =>
          let sm' := ops.queuePing sm payload (rw.now + inner2.pingTimeout)
          let inner3 : Inner S U :=
            { inner2 with
              yamux := inner2.yamux.setUserData inner2.outgoingPings
                (some (sm', ud, buf)) }
          some (PingStepResult.proceed inner3 (rw.wakeUpAfter inner3.nextPing))
      | some none => none
      | none => none
    else some (PingStepResult.failed inner1 rw)
  else some (PingStepResult.proceed inner (rw.wakeUpAfter inner.nextPing))

/-! ## The dead-substream sweep (single_stream.rs lines 351 to 473) -/

/-- The fresh scratchpad built for a gracefully-closed substream's final
machine run (single_stream.rs lines 419 to 428): clock copied, empty
incoming buffer, read side closed (`expected_incoming_bytes: None`) and
write side closed (`write_bytes_queueable: None`). -/
def gracefulSweepRW (now : Nat) : RW :=
  { now := now
    incoming_buffer := []
    expected_incoming_bytes := none
    write_buffers := []
    write_bytes_queued := 0
    write_bytes_queueable := none
    read_bytes := 0
    wake_up_after := none }

/-- The `Reset` arm of the dead-substream sweep (single_stream.rs lines
361 to 386): remove the substream; if its machine was still present, run
its `reset()` transition and translate any final event. `none` when the
user-data unwrap of the translation would have panicked. -/
def sweepResetStep {S U : Type} (ops : SubstreamOps S) (inner : Inner S U)
    (rw : RW) (id : Nat) :
    Option ((Inner S U × RW) × Option (Event U)) :=
  let rem := inner.yamux.removeDeadSubstream id
  let inner' : Inner S U := { inner with yamux := rem.2 }
  match rem.1 with
  | some (some (sm, ud, _)) =>
      match ops.resetSM sm with
      | some ev =>
          match passThrough id ud ev with
          | none => none
          | some (evT, _) => some ((inner', rw), some evT)
      | none => some ((inner', rw), none)
  | _ => some ((inner', rw), none)

/-- The `ClosedGracefully` arm of the dead-substream sweep
(single_stream.rs lines 387 to 471): if the machine was already extracted,
remove the substream and continue; otherwise run the machine's
`read_write` against `gracefulSweepRW`, merge its wake-up into the caller's
scratchpad, translate any event, and either reinsert the machine or remove
the substream.  The boolean is the updated `must_continue_looping` flag. -/
def sweepGracefulStep {S U : Type} (ops : SubstreamOps S) (inner : Inner S U)
    (rw : RW) (id : Nat) (mustContinue : Bool) :
    Option ((Inner S U × RW × Bool) × Option (Event U)) :=
  match inner.yamux.userData id with
  | none => none
  | some none =>
      some ((⟨{ inner with yamux := (inner.yamux.removeDeadSubstream id).2 },
              rw, true⟩), none)
  | some (some (sm, ud, buf)) =>
      let inner0 : Inner S U :=
        { inner with yamux := inner.yamux.setUserData id none }
      let step := ops.readWrite sm (gracefulSweepRW rw.now)
      let rwSub' := step.1
      let next := step.2.1
      let ev := step.2.2
      let rw' :=
        match rwSub'.wake_up_after with
        | some t => rw.wakeUpAfter t
        | none => rw
      match translateEvent id ud ev with
      | none => none
      | some (evT, ud') =>
          match next with
          | some s' =>
              some ((⟨{ inner0 with
                        yamux := inner0.yamux.setUserData id
                          (some (s', ud', buf)) }, rw', mustContinue⟩), evT)
          | none =>
              some ((⟨{ inner0 with
                        yamux := (inner0.yamux.removeDeadSubstream id).2 },
                      rw', true⟩), evT)

/-- The dead-substream sweep loop (single_stream.rs lines 353 to 473):
iterate over the snapshot of dead substream ids, dispatching on the death
type; return the first translated event immediately. -/
def sweep {S U : Type} (ops : SubstreamOps S) :
    List (Nat × DeadTy) → Inner S U → RW → Bool →
    Option ((Inner S U × RW × Bool) ⊕ (Inner S U × RW × Event U))
  | [], inner, rw, mc => some (Sum.inl (inner, rw, mc))
  | (id, DeadTy.reset) :: rest, inner, rw, _mc =>
      match sweepResetStep ops inner rw id with
      | none => none
      | some ((inner', rw'), some ev) => some (Sum.inr (inner', rw', ev))
      | some ((inner', rw'), none) => sweep ops rest inner' rw' true
  | (id, DeadTy.closedGracefully) :: rest, inner, rw, mc =>
      match sweepGracefulStep ops inner rw id mc with
      | none => none
      | some ((inner', rw', _mc'), some ev) => some (Sum.inr (inner', rw', ev))
      | some ((inner', rw', mc'), none) => sweep ops rest inner' rw' mc'

/-! ## The outbound flush and the main loop
(single_stream.rs lines 180 to 481) -/

/-- The outbound flush of the main loop (single_stream.rs lines 341 to
347): while yamux yields an outbound chunk within the remaining queueable
capacity, append it to the caller's write queue. -/
def drainOut {A : Type} (y : Ymx A) (rw : RW) : Ymx A × RW :=
  match h : y.extractNext (rw.write_bytes_queueable.getD 0) with
  | none => (y, rw)
  | some (buf, y') => drainOut y' (rw.writeOut buf)
termination_by 2 * (y.outQueue.map List.length).sum + y.outQueue.length
decreasing_by
  simp only [Ymx.extractNext] at h
  rcases hq : y.outQueue with _ | ⟨c, rest⟩
  · simp [hq] at h
  · simp only [hq] at h
    by_cases h0 : rw.write_bytes_queueable.getD 0 = 0
    · simp [h0] at h
    · by_cases hc : c.length ≤ rw.write_bytes_queueable.getD 0
      · simp only [h0, hc, if_true, if_false, if_neg, if_pos,
          Option.some.injEq, Prod.mk.injEq] at h
        obtain ⟨h1, h2⟩ := h
        subst h2
        simp [hq]
        omega
      · simp only [h0, hc, if_true, if_false, if_neg, if_pos,
          Option.some.injEq, Prod.mk.injEq] at h
        obtain ⟨h1, h2⟩ := h
        subst h2
        simp [hq, List.length_drop]
        omega

/-- Result of one main-loop iteration: a function return, a fatal error,
or another iteration. -/
inductive LoopStep (S U : Type)
  | ret (inner : Inner S U) (rw : RW) (ev : Option (Event U))
  | fatalStep (rw : RW)
  | again (inner : Inner S U) (rw : RW)

/-- The detail dispatch of the main loop (single_stream.rs lines 257 to
334): consume the bytes yamux decoded and react to the decode detail.
Yields either the state threaded into the rest of the iteration
(`Sum.inl`), an immediate loop step (`Sum.inr`: the `continue` after a
rejected inbound substream, or the `NewOutboundSubstreamsForbidden`
return), or `none` for a panicking path. -/
def dispatchDetail {S U : Type} (ops : SubstreamOps S) (inner : Inner S U)
    (rw : RW) (mustContinue : Bool) (bytesRead : Nat)
    (detail : Option Detail) :
    Option ((Inner S U × RW × Bool) ⊕ LoopStep S U) :=
  match detail with
  | none =>
      if bytesRead = 0 then
        some (Sum.inl (inner, rw, mustContinue))
      else
        some (Sum.inl (inner, rw.incomingBytesTake bytesRead,
          mustContinue))
  | some Detail.incomingSubstream =>
      let rw := rw.incomingBytesTake bytesRead
      if inner.maxInboundSubstreams ≤ inner.yamux.numInbound then
        match inner.yamux.rejectPendingSubstream with
        | none => none
        | some y' =>
            some (Sum.inr (LoopStep.again { inner with yamux := y' } rw))
      else
        match inner.yamux.acceptPendingSubstream
            (some (ops.ingoing inner.maxProtocolNameLen, none, [])) with
        | none => none
        | some y' =>
            some (Sum.inl ({ inner with yamux := y' }, rw, mustContinue))
  | some (Detail.streamReset _) =>
      some (Sum.inl (inner, rw.incomingBytesTake bytesRead,
        mustContinue))
  | some (Detail.streamClosed _) =>
      some (Sum.inl (inner, rw.incomingBytesTake bytesRead,
        mustContinue))
  | some (Detail.dataFrame startOffset id) =>
      match inner.yamux.userData id with
      | some (some (sm, ud, buf)) =>
          let slice :=
            (rw.incoming_buffer.take bytesRead).drop startOffset
          let inner' : Inner S U :=
            { inner with
              yamux := inner.yamux.setUserData id
                (some (sm, ud, buf ++ slice))
              substreamToProcess := some id }
          some (Sum.inl (inner', rw.incomingBytesTake bytesRead,
            mustContinue))
      | _ => none
  | some (Detail.goAway _) =>
      some (Sum.inr (LoopStep.ret inner (rw.incomingBytesTake bytesRead)
        (some Event.newOutboundSubstreamsForbidden)))
  | some Detail.pingResponse => none

/-- Steps (c) to (h) of one main-loop iteration (single_stream.rs lines
234 to 479): obtain the decrypted view (the noise layer is modelled as a
pass-through), feed the incoming buffer to yamux, dispatch on the decode
detail, flush outbound frames, sweep dead substreams, and either return
due to idleness or request another iteration. -/
def loopRest {S U : Type} (ops : SubstreamOps S) (inner : Inner S U)
    (rw : RW) (mustContinue : Bool) : Option (LoopStep S U) :=
  match inner.yamux.incomingData rw.incoming_buffer with
  | Except.error _ => some (LoopStep.fatalStep rw)
  | Except.ok (bytesRead, detail, y) =>
      let inner := { inner with yamux := y }
      let mustContinue :=
        mustContinue || !(bytesRead == 0 && detail.isNone)
      match dispatchDetail ops inner rw mustContinue bytesRead detail with
      | none => none
      | some (Sum.inr step) => some step
      | some (Sum.inl (inner, rw, mustContinue)) =>
          let flushed := drainOut inner.yamux rw
          let inner := { inner with yamux := flushed.1 }
          let rw := flushed.2
          match sweep ops inner.yamux.deadSubstreams inner rw mustContinue with
          | none => none
          | some (Sum.inr (inner', rw', ev)) =>
              some (LoopStep.ret inner' rw' (some ev))
          | some (Sum.inl (inner', rw', mustContinue')) =>
              if mustContinue' then some (LoopStep.again inner' rw')
              else some (LoopStep.ret inner' rw' none)

/-- One full iteration of the main loop (single_stream.rs lines 180 to
479): step (a), the write-side close on full termination; step (b), the
`substream_to_process` handling with its `continue` paths; then the rest
of the iteration. -/
def loopBody {S U : Type} (ops : SubstreamOps S) (inner : Inner S U)
    (rw : RW) : Option (LoopStep S U) :=
  let rw :=
    if inner.yamux.isEmpty && inner.yamux.goawaySentFlag &&
        inner.yamux.receivedGoawayCode.isSome then
      rw.closeWrite
    else rw
  match inner.substreamToProcess with
  | some id =>
      if !(inner.yamux.hasSubstream id) then
        some (LoopStep.again { inner with substreamToProcess := none } rw)
      else
        match processSubstream ops inner rw id with
        | none => none
        | some (inner', rw', callAgain, ev) =>
            let inner' :=
              if !callAgain then { inner' with substreamToProcess := none }
              else inner'
            match ev with
            | some e => some (LoopStep.ret inner' rw' (some e))
            | none =>
                if callAgain then some (LoopStep.again inner' rw')
                else loopRest ops inner' rw' false
  | none => loopRest ops inner rw false

/-- The main loop of `read_write`, bounded by an explicit fuel: each
`continue` of the source consumes one unit.  Fuel exhaustion is reported
as a distinguished outcome, never as a fabricated return. -/
def mainLoop {S U : Type} (ops : SubstreamOps S) :
    Nat → Inner S U → RW → Outcome S U
  | 0, inner, rw => Outcome.outOfFuel inner rw
  | Nat.succ f, inner, rw =>
      match loopBody ops inner rw with
      | none => Outcome.panicked
      | some (LoopStep.fatalStep rw') => Outcome.fatal rw' DriverError.yamuxErr
      | some (LoopStep.ret inner' rw' ev) => Outcome.ok inner' rw' ev
      | some (LoopStep.again inner' rw') => mainLoop ops f inner' rw'

/-- Transcription of `SingleStream::read_write` (single_stream.rs lines
133 to 481): the substream pre-flush pass, the ping-scheduling step
(including its early `PingOutFailed` return) and the main loop. -/
def readWrite {S U : Type} (ops : SubstreamOps S) (fuel : Nat)
    (inner : Inner S U) (rw : RW) : Outcome S U :=
  match preFlush ops inner rw (inner.yamux.substreams.map Prod.fst) with
  | none => Outcome.panicked
  | some (Sum.inr (inner', rw', ev)) => Outcome.ok inner' rw' (some ev)
  | some (Sum.inl (inner', rw')) =>
      match pingStep ops inner' rw' with
      | none => Outcome.panicked
      | some (PingStepResult.failed inner2 rw2) =>
          Outcome.ok inner2 rw2 (some Event.pingOutFailed)
      | some (PingStepResult.proceed inner2 rw2) =>
          mainLoop ops fuel inner2 rw2

/-! ## `SingleStream::add_request` (single_stream.rs lines 694 to 727) -/

/-- Modelled from the spec: the `yamux::NEW_SUBSTREAMS_FRAME_SIZE`
constant.  Its value is not given by the spec; the claims below hold for
any value, and it is fixed here to the size of a yamux frame header. -/
def NEW_SUBSTREAMS_FRAME_SIZE : Nat := 12

/-- The remote-window increment granted by `add_request` (single_stream.rs
lines 718 to 724): `u64::try_from(max_response_size).unwrap_or(u64::MAX)`
followed by a saturating add of 64 and a saturating sub of
`NEW_SUBSTREAMS_FRAME_SIZE`. -/
def addRequestWindowIncrement (maxResponseSize : Nat) : Nat :=
  satSub64 (satAdd64 (min maxResponseSize U64MAX) 64) NEW_SUBSTREAMS_FRAME_SIZE

/-- Transcription of `SingleStream::add_request` (single_stream.rs lines
694 to 727): open an outbound substream holding a fresh `request_out`
machine, the user data and an empty read buffer, then extend the peer's
remote window by `addRequestWindowIncrement`.  `none` when the
`open_substream` unwrap would have panicked. -/
def addRequest {S U : Type} (ops : SubstreamOps S) (inner : Inner S U)
    (protocolName : String) (request : Option Bytes) (timeout : Nat)
    (maxResponseSize : Nat) (userData : U) :
    Option (Inner S U × SubstreamId) :=
  match inner.yamux.openSubstream
      (some (ops.requestOut protocolName timeout request maxResponseSize,
             some userData, [])) with
  | none => none
  | some (id, y) =>
      let y' := y.addRemoteWindowSaturating id
        (addRequestWindowIncrement maxResponseSize)
      some ({ inner with yamux := y' }, sid id)

/-! ## The multiaddress parser
(`src/light-base/src/platform/address_parse.rs`) -/

/-- Whether a byte is a UTF-8 continuation byte (`0x80 ..= 0xBF`). -/
def isCont (b : Nat) : Bool := 0x80 ≤ b && b ≤ 0xBF

/-- Modelled from the spec: validity of a byte sequence as UTF-8, the
check performed by `core::str::from_utf8` (external to the repository),
following the UTF-8 definition: no overlong encodings, no surrogates, no
code points above `U+10FFFF`. -/
def utf8Valid : List Nat → Bool
  | [] => true
  | b :: rest =>
      if b ≤ 0x7F then utf8Valid rest
      else if 0xC2 ≤ b && b ≤ 0xDF then
        match rest with
        | c1 :: rest' => isCont c1 && utf8Valid rest'
        | [] => false
      else if b = 0xE0 then
        match rest with
        | c1 :: c2 :: rest' =>
            (0xA0 ≤ c1 && c1 ≤ 0xBF) && isCont c2 && utf8Valid rest'
        | _ => false
      else if (0xE1 ≤ b && b ≤ 0xEC) || b = 0xEE || b = 0xEF then
        match rest with
        | c1 :: c2 :: rest' => isCont c1 && isCont c2 && utf8Valid rest'
        | _ => false
      else if b = 0xED then
        match rest with
        | c1 :: c2 :: rest' =>
            (0x80 ≤ c1 && c1 ≤ 0x9F) && isCont c2 && utf8Valid rest'
        | _ => false
      else if b = 0xF0 then
        match rest with
        | c1 :: c2 :: c3 :: rest' =>
            (0x90 ≤ c1 && c1 ≤ 0xBF) && isCont c2 && isCont c3 &&
              utf8Valid rest'
        | _ => false
      else if 0xF1 ≤ b && b ≤ 0xF3 then
        match rest with
        | c1 :: c2 :: c3 :: rest' =>
            isCont c1 && isCont c2 && isCont c3 && utf8Valid rest'
        | _ => false
      else if b = 0xF4 then
        match rest with
        | c1 :: c2 :: c3 :: rest' =>
            (0x80 ≤ c1 && c1 ≤ 0x8F) && isCont c2 && isCont c3 &&
              utf8Valid rest'
        | _ => false
      else false

/-- Modelled from the spec: a parsed multihash, as produced by
`multihash::MultihashRef::from_bytes` (the `multihash` module is not among
the sources under verification): the hash-algorithm code and the hash
data.  The `Certhash` component carries one, the `Multiaddr` type
guaranteeing well-formedness of the raw bytes. -/
structure Multihash where
  code : Nat
  data : Bytes
  deriving Repr, DecidableEq

/-- Modelled from the spec: the multiaddress components
(`multiaddr::ProtocolRef`) distinguished by `multiaddr_to_address`.  IP
addresses and ports are opaque payloads (naturals); DNS components carry
raw host bytes. -/
inductive ProtocolRef
  | ip4 (ip : Nat)
  | ip6 (ip : Nat)
  | tcp (port : Nat)
  | udp (port : Nat)
  | dns (addr : Bytes)
  | dns4 (addr : Bytes)
  | dns6 (addr : Bytes)
  | ws
  | wss
  | tls
  | webRtcDirect
  | certhash (hash : Multihash)
  | other
  deriving Repr, DecidableEq

/-- Mirror of `platform::IpAddr`. -/
inductive IpAddr
  | v4 (ip : Nat)
  | v6 (ip : Nat)
  deriving Repr, DecidableEq

/-- Mirror of `platform::Address` (the single-stream address family).
Hostnames are the validated UTF-8 bytes of the DNS component. -/
inductive Address
  | tcpIp (ip : IpAddr) (port : Nat)
  | tcpDns (hostname : Bytes) (port : Nat)
  | webSocketIp (ip : IpAddr) (port : Nat)
  | webSocketDns (hostname : Bytes) (port : Nat) (secure : Bool)
  deriving Repr, DecidableEq

/-- Mirror of `platform::MultiStreamAddress`. -/
inductive MultiStreamAddress
  | webRtc (ip : IpAddr) (port : Nat) (remoteCertificateSha256 : Bytes)
  deriving Repr, DecidableEq

/-- Mirror of `address_parse::AddressOrMultiStreamAddress`. -/
inductive AddressOrMultiStreamAddress
  | address (a : Address)
  | multiStreamAddress (m : MultiStreamAddress)
  deriving Repr, DecidableEq

/-- Mirror of `address_parse::Error` (address_parse.rs lines 150 to
170). -/
inductive AddrError
  | unknownCombination
  | nonUtf8DomainName
  | nonSha256Certhash
  | invalidMultihashLength
  deriving Repr, DecidableEq

/-- The DNS-component test shared by several arms of the source match
(`ProtocolRef::Dns(addr) | ProtocolRef::Dns4(addr) |
ProtocolRef::Dns6(addr)`). -/
def dnsAddr : ProtocolRef → Option Bytes
  | ProtocolRef.dns a => some a
  | ProtocolRef.dns4 a => some a
  | ProtocolRef.dns6 a => some a
  | _ => none

/-- The body of the source's four-component match (address_parse.rs lines
41 to 147), after the iterator has been split into at least two mandatory
and two optional components. -/
def matchProtocols (p1 p2 : ProtocolRef) (p3 p4 : Option ProtocolRef) :
    Except AddrError AddressOrMultiStreamAddress :=
  match p1, p2, p3, p4 with
  | ProtocolRef.ip4 ip, ProtocolRef.tcp port, none, none =>
      Except.ok (AddressOrMultiStreamAddress.address
        (Address.tcpIp (IpAddr.v4 ip) port))
  | ProtocolRef.ip6 ip, ProtocolRef.tcp port, none, none =>
      Except.ok (AddressOrMultiStreamAddress.address
        (Address.tcpIp (IpAddr.v6 ip) port))
  | ProtocolRef.ip4 ip, ProtocolRef.tcp port, some ProtocolRef.ws, none =>
      Except.ok (AddressOrMultiStreamAddress.address
        (Address.webSocketIp (IpAddr.v4 ip) port))
  | ProtocolRef.ip6 ip, ProtocolRef.tcp port, some ProtocolRef.ws, none =>
      Except.ok (AddressOrMultiStreamAddress.address
        (Address.webSocketIp (IpAddr.v6 ip) port))
  | ProtocolRef.ip4 ip, ProtocolRef.udp port, some ProtocolRef.webRtcDirect,
      some (ProtocolRef.certhash hash) =>
      if hash.code ≠ 12 then Except.error AddrError.nonSha256Certhash
      else if hash.data.length ≠ 32 then
        Except.error AddrError.invalidMultihashLength
      else
        Except.ok (AddressOrMultiStreamAddress.multiStreamAddress
          (MultiStreamAddress.webRtc (IpAddr.v4 ip) port hash.data))
  | ProtocolRef.ip6 ip, ProtocolRef.udp port, some ProtocolRef.webRtcDirect,
      some (ProtocolRef.certhash hash) =>
      if hash.code ≠ 12 then Except.error AddrError.nonSha256Certhash
      else if hash.data.length ≠ 32 then
        Except.error AddrError.invalidMultihashLength
      else
        Except.ok (AddressOrMultiStreamAddress.multiStreamAddress
          (MultiStreamAddress.webRtc (IpAddr.v6 ip) port hash.data))
  | d, ProtocolRef.tcp port, none, none =>
      match dnsAddr d with
      | some addr =>
          if utf8Valid addr then
            Except.ok (AddressOrMultiStreamAddress.address
              (Address.tcpDns addr port))
          else Except.error AddrError.nonUtf8DomainName
      | none => Except.error AddrError.unknownCombination
  | d, ProtocolRef.tcp port, some ProtocolRef.ws, none =>
      match dnsAddr d with
      | some addr =>
          if utf8Valid addr then
            Except.ok (AddressOrMultiStreamAddress.address
              (Address.webSocketDns addr port false))
          else Except.error AddrError.nonUtf8DomainName
      | none => Except.error AddrError.unknownCombination
  | d, ProtocolRef.tcp port, some ProtocolRef.wss, none =>
      match dnsAddr d with
      | some addr =>
          if utf8Valid addr then
            Except.ok (AddressOrMultiStreamAddress.address
              (Address.webSocketDns addr port true))
          else Except.error AddrError.nonUtf8DomainName
      | none => Except.error AddrError.unknownCombination
  | d, ProtocolRef.tcp port, some ProtocolRef.tls, some ProtocolRef.ws =>
      match dnsAddr d with
      | some addr =>
          if utf8Valid addr then
            Except.ok (AddressOrMultiStreamAddress.address
              (Address.webSocketDns addr port true))
          else Except.error AddrError.nonUtf8DomainName
      | none => Except.error AddrError.unknownCombination
  | _, _, _, _ => Except.error AddrError.unknownCombination

/-- Transcription of `multiaddr_to_address` (address_parse.rs lines 29 to
148): the first two components are mandatory, the third and fourth
optional, and any component beyond the fourth is an unknown
combination. -/
def multiaddrToAddress (components : List ProtocolRef) :
    Except AddrError AddressOrMultiStreamAddress :=
  match components with
  | [p1, p2] => matchProtocols p1 p2 none none
  | [p1, p2, p3] => matchProtocols p1 p2 (some p3) none
  | [p1, p2, p3, p4] => matchProtocols p1 p2 (some p3) (some p4)
  | _ => Except.error AddrError.unknownCombination

/-! ## The wasm-node platform stream queue
(`src/wasm-node/rust/src/platform.rs`) -/

/-- Mirror of the per-stream state of `platform.rs` used by
`stream_message`: the reset flag, the queue of buffered inbound messages
and its total size in bytes, and the extra writable-bytes counter. -/
structure PStream where
  reset : Bool
  messagesQueue : List Bytes
  messagesQueueTotalSize : Nat
  writableBytesExtra : Nat
  deriving Repr, DecidableEq

/-- The buffering limit of `stream_message` (platform.rs line 941):
25 MiB. -/
def STREAM_QUEUE_LIMIT : Nat := 25 * 1024 * 1024

/-- Transcription of `stream_message` (platform.rs lines 899 to 948),
restricted to its effect on the addressed live stream: empty messages are
ignored; messages arriving while the buffered total is at or above the
limit are discarded; otherwise the message is appended and the total-size
counter grows by its length.  (The global received-bytes counter and the
wake-up notification are not part of the stream state.) -/
def streamMessage (s : PStream) (message : Bytes) : PStream :=
  if message.isEmpty then s
  else if STREAM_QUEUE_LIMIT ≤ s.messagesQueueTotalSize then s
  else
    { s with
      messagesQueueTotalSize := s.messagesQueueTotalSize + message.length
      messagesQueue := s.messagesQueue ++ [message] }

/-! ## Auxiliary definitions for the statements below -/

/-- The number of events surfaced by one `read_write` outcome (zero or
one: the return type is `Option<Event>`). -/
def eventsReturned {S U : Type} : Outcome S U → Nat
  | Outcome.ok _ _ (some _) => 1
  | Outcome.ok _ _ none => 0
  | _ => 0

/-- Ordering on optional wake-up deadlines: `wakeLe a b` says that `a` is
at least as early as `b` — whenever `b` is a deadline, `a` is a deadline
no later than it.  The scratchpad operations only ever tighten the
wake-up, so this relation is preserved along an invocation. -/
def wakeLe (a b : Option Nat) : Prop :=
  ∀ t, b = some t → ∃ u, a = some u ∧ u ≤ t

/-- Shape of every state update performed inside the main loop: only the
yamux state and the substream-to-process pointer change; the ping
schedule, the randomness and the configured limits are untouched. -/
def coreShape {S U : Type} (a b : Inner S U) : Prop :=
  ∃ y stp, b = { a with yamux := y, substreamToProcess := stp }

/-- A trivial substream-machine implementation over the unit state: its
`read_write` leaves the scratchpad unchanged, stays alive and emits no
event.  Used to instantiate the driver theorems on concrete inputs. -/
def unitOps : SubstreamOps Unit where
  readWrite := fun s rw => (rw, some s, none)
  resetSM := fun _ => none
  ingoing := fun _ => ()
  requestOut := fun _ _ _ _ => ()
  notificationsOut := fun _ _ _ _ => ()
  pingOut := fun _ => ()
  queuePing := fun s _ _ => s

/-- A recording substream-machine implementation whose state type is the
scratchpad itself: its `read_write` returns, as the next state, exactly
the scratchpad it was invoked with.  Running the driver over it exhibits,
in the resulting slot, the scratchpad that the driver handed to the
machine. -/
def recOps : SubstreamOps RW where
  readWrite := fun _ rw => (rw, some rw, none)
  resetSM := fun _ => none
  ingoing := fun _ => gracefulSweepRW 0
  requestOut := fun _ _ _ _ => gracefulSweepRW 0
  notificationsOut := fun _ _ _ _ => gracefulSweepRW 0
  pingOut := fun _ => gracefulSweepRW 0
  queuePing := fun s _ _ => s

/-- A driver state holding one substream (id 3) that died gracefully with
its machine still present: the input of the C2 counterexample. -/
def c2Inner : Inner RW Unit :=
  { yamux :=
      { substreams :=
          [(3, { ud := some (gracefulSweepRW 9, none, []), inbound := false,
                 canReceive := false, canSend := false, remoteWindow := 0,
                 queuedBytes := 0, dead := some DeadTy.closedGracefully })]
        nextId := 4
        goawaySentFlag := false
        goawayQueuedFlag := false
        receivedGoawayCode := none
        pendingIncoming := false
        outQueue := []
        script := [] }
    substreamToProcess := none
    outgoingPings := 99
    nextPing := 100
    pingRng := fun _ => []
    pingRngCounter := 0
    maxInboundSubstreams := 1
    maxProtocolNameLen := 10
    pingInterval := 7
    pingTimeout := 3 }

/-- A fresh caller scratchpad with clock 0 and an open write side. -/
def c2RW : RW :=
  { now := 0, incoming_buffer := [], expected_incoming_bytes := some 0,
    write_buffers := [], write_bytes_queued := 0,
    write_bytes_queueable := some 100, read_bytes := 0,
    wake_up_after := none }

/-- Runs `read_write` over the recording machines on `c2Inner` and probes
the write-side capacity of the scratchpad that the graceful-sweep run
handed to the substream machine (recorded as the machine's next state and
reinserted into slot 3). -/
def c2probe : Option (Option Nat) :=
  match readWrite recOps 2 c2Inner c2RW with
  | Outcome.ok i _ _ =>
      match i.yamux.userData 3 with
      | some (some (s, _, _)) => some s.write_bytes_queueable
      | _ => none
  | _ => none

/-- A driver state for the C2 witness: one gracefully-dead substream with
a unit machine present. -/
def w2Inner : Inner Unit Unit :=
  { yamux :=
      { substreams :=
          [(3, { ud := some ((), none, []), inbound := false,
                 canReceive := false, canSend := false, remoteWindow := 0,
                 queuedBytes := 0, dead := some DeadTy.closedGracefully })]
        nextId := 4
        goawaySentFlag := false
        goawayQueuedFlag := false
        receivedGoawayCode := none
        pendingIncoming := false
        outQueue := []
        script := [] }
    substreamToProcess := none
    outgoingPings := 99
    nextPing := 100
    pingRng := fun _ => []
    pingRngCounter := 0
    maxInboundSubstreams := 1
    maxProtocolNameLen := 10
    pingInterval := 7
    pingTimeout := 3 }

/-- A caller scratchpad with clock 5 for the C2 witness. -/
def w2RW : RW :=
  { now := 5, incoming_buffer := [], expected_incoming_bytes := some 0,
    write_buffers := [], write_bytes_queued := 0,
    write_bytes_queueable := some 100, read_bytes := 0,
    wake_up_after := none }

/-- A driver state whose outgoing-ping substream (id 0) is gone — the
remote has reset it — and whose ping deadline (3) has passed: the input
of the C3 counterexample. -/
def c3Inner : Inner Unit Unit :=
  { yamux :=
      { substreams := []
        nextId := 1
        goawaySentFlag := false
        goawayQueuedFlag := false
        receivedGoawayCode := none
        pendingIncoming := false
        outQueue := []
        script := [] }
    substreamToProcess := none
    outgoingPings := 0
    nextPing := 3
    pingRng := fun _ => []
    pingRngCounter := 0
    maxInboundSubstreams := 1
    maxProtocolNameLen := 10
    pingInterval := 10
    pingTimeout := 4 }

/-- A caller scratchpad with clock 5 (past the ping deadline of
`c3Inner`) and no wake-up request. -/
def c3RW : RW :=
  { now := 5, incoming_buffer := [], expected_incoming_bytes := some 0,
    write_buffers := [], write_bytes_queued := 0,
    write_bytes_queueable := some 100, read_bytes := 0,
    wake_up_after := none }

/-- Runs `read_write` on `c3Inner`/`c3RW` and probes the resulting
wake-up deadline and event. -/
def c3probe : Option (Option Nat × Option (Event Unit)) :=
  match readWrite unitOps 1 c3Inner c3RW with
  | Outcome.ok _ r ev => some (r.wake_up_after, ev)
  | _ => none

/-- An idle driver state with a future ping deadline (5): the input of
the C3 and C4 witnesses. -/
def w3Inner : Inner Unit Unit :=
  { yamux :=
      { substreams := []
        nextId := 1
        goawaySentFlag := false
        goawayQueuedFlag := false
        receivedGoawayCode := none
        pendingIncoming := false
        outQueue := []
        script := [] }
    substreamToProcess := none
    outgoingPings := 0
    nextPing := 5
    pingRng := fun _ => []
    pingRngCounter := 0
    maxInboundSubstreams := 1
    maxProtocolNameLen := 10
    pingInterval := 10
    pingTimeout := 4 }

/-- A caller scratchpad with clock 0 for the C3 witness. -/
def w3RW : RW :=
  { now := 0, incoming_buffer := [], expected_incoming_bytes := some 0,
    write_buffers := [], write_bytes_queued := 0,
    write_bytes_queueable := some 100, read_bytes := 0,
    wake_up_after := none }

/-- Extracts the state component of a pre-flush result. -/
def preFlushInner {S U : Type} :
    (Inner S U × RW) ⊕ (Inner S U × RW × Event U) → Inner S U
  | Sum.inl (i, _) => i
  | Sum.inr (i, _, _) => i

/-- Extracts the scratchpad component of a pre-flush result. -/
def preFlushRW {S U : Type} :
    (Inner S U × RW) ⊕ (Inner S U × RW × Event U) → RW
  | Sum.inl (_, r) => r
  | Sum.inr (_, r, _) => r

/-- Extracts the state component of a sweep result. -/
def sweepInner {S U : Type} :
    (Inner S U × RW × Bool) ⊕ (Inner S U × RW × Event U) → Inner S U
  | Sum.inl (i, _, _) => i
  | Sum.inr (i, _, _) => i

/-- Extracts the scratchpad component of a sweep result. -/
def sweepRW {S U : Type} :
    (Inner S U × RW × Bool) ⊕ (Inner S U × RW × Event U) → RW
  | Sum.inl (_, r, _) => r
  | Sum.inr (_, r, _) => r

/-- Extracts the state component of a loop step, when present. -/
def stepInner {S U : Type} : LoopStep S U → Option (Inner S U)
  | LoopStep.ret i _ _ => some i
  | LoopStep.again i _ => some i
  | LoopStep.fatalStep _ => none

/-- Extracts the scratchpad component of a loop step, when present. -/
def stepRW {S U : Type} : LoopStep S U → Option RW
  | LoopStep.ret _ r _ => some r
  | LoopStep.again _ r => some r
  | LoopStep.fatalStep _ => none

/-- A driver state with one pending inbound substream and room below the
inbound limit: the input of the C5 witness. -/
def w5Inner : Inner Unit Unit :=
  { yamux :=
      { substreams := []
        nextId := 7
        goawaySentFlag := false
        goawayQueuedFlag := false
        receivedGoawayCode := none
        pendingIncoming := true
        outQueue := []
        script := [] }
    substreamToProcess := none
    outgoingPings := 0
    nextPing := 3
    pingRng := fun _ => []
    pingRngCounter := 0
    maxInboundSubstreams := 1
    maxProtocolNameLen := 10
    pingInterval := 10
    pingTimeout := 4 }

/-- A driver state holding one live substream (id 3) with an open read
and write side: the input of the C6 witness. -/
def w6Inner : Inner Unit Unit :=
  { yamux :=
      { substreams :=
          [(3, { ud := some ((), none, []), inbound := false,
                 canReceive := true, canSend := true, remoteWindow := 0,
                 queuedBytes := 0, dead := none })]
        nextId := 4
        goawaySentFlag := false
        goawayQueuedFlag := false
        receivedGoawayCode := none
        pendingIncoming := false
        outQueue := []
        script := [] }
    substreamToProcess := none
    outgoingPings := 99
    nextPing := 100
    pingRng := fun _ => []
    pingRngCounter := 0
    maxInboundSubstreams := 1
    maxProtocolNameLen := 10
    pingInterval := 7
    pingTimeout := 3 }

/-- An empty driver state with no GoAway received: the input of the C7
witness. -/
def w7Inner : Inner Unit Unit :=
  { yamux :=
      { substreams := []
        nextId := 2
        goawaySentFlag := false
        goawayQueuedFlag := false
        receivedGoawayCode := none
        pendingIncoming := false
        outQueue := []
        script := [] }
    substreamToProcess := none
    outgoingPings := 0
    nextPing := 3
    pingRng := fun _ => []
    pingRngCounter := 0
    maxInboundSubstreams := 1
    maxProtocolNameLen := 10
    pingInterval := 10
    pingTimeout := 4 }

/-! # Theorems for the claims -/

/-! ## Helper lemmas about the scratchpad operations -/

theorem RW.now_wakeUpAfter (rw : RW) (t : Nat) : (rw.wakeUpAfter t).now = rw.now := rfl

theorem RW.now_wakeUpAsap (rw : RW) : rw.wakeUpAsap.now = rw.now := rfl

theorem RW.now_incomingBytesTake (rw : RW) (n : Nat) :
    (rw.incomingBytesTake n).now = rw.now := rfl

theorem RW.now_writeOut (rw : RW) (b : Bytes) : (rw.writeOut b).now = rw.now := rfl

theorem RW.now_closeWrite (rw : RW) : rw.closeWrite.now = rw.now := rfl

theorem RW.wake_incomingBytesTake (rw : RW) (n : Nat) :
    (rw.incomingBytesTake n).wake_up_after = rw.wake_up_after := rfl

theorem RW.wake_writeOut (rw : RW) (b : Bytes) :
    (rw.writeOut b).wake_up_after = rw.wake_up_after := rfl

theorem RW.wake_closeWrite (rw : RW) :
    rw.closeWrite.wake_up_after = rw.wake_up_after := rfl

theorem wakeLe_refl (a : Option Nat) : wakeLe a a := by
  intro t ht
  exact ⟨t, ht, le_refl t⟩

theorem wakeLe_trans {a b c : Option Nat} (h1 : wakeLe a b) (h2 : wakeLe b c) :
    wakeLe a c := by
  intro t ht
  obtain ⟨u, hu, hut⟩ := h2 t ht
  obtain ⟨v, hv, hvu⟩ := h1 u hu
  exact ⟨v, hv, le_trans hvu hut⟩

theorem wakeLe_of_eq {a b : Option Nat} (h : a = b) : wakeLe a b := by
  subst h
  exact wakeLe_refl a

/-- `wake_up_after` only tightens the wake-up deadline. -/
theorem wakeLe_wakeUpAfter (rw : RW) (t : Nat) :
    wakeLe (rw.wakeUpAfter t).wake_up_after rw.wake_up_after := by
  intro u hu
  rcases h : rw.wake_up_after with _ | v
  · simp [h] at hu
  · rw [h] at hu
    cases hu
    exact ⟨min u t, by simp [RW.wakeUpAfter, h], min_le_left _ _⟩

/-- The deadline registered by `wake_up_after t` is at most `t`. -/
theorem wakeUpAfter_le (rw : RW) (t : Nat) :
    ∃ u, (rw.wakeUpAfter t).wake_up_after = some u ∧ u ≤ t := by
  rcases h : rw.wake_up_after with _ | v
  · exact ⟨t, by simp [RW.wakeUpAfter, h], le_refl t⟩
  · exact ⟨min v t, by simp [RW.wakeUpAfter, h], min_le_right v t⟩

theorem wakeLe_wakeUpAsap (rw : RW) :
    wakeLe rw.wakeUpAsap.wake_up_after rw.wake_up_after :=
  wakeLe_wakeUpAfter rw rw.now

/-! ## Helper lemmas about `coreShape` -/

theorem coreShape_refl {S U : Type} (a : Inner S U) : coreShape a a :=
  ⟨a.yamux, a.substreamToProcess, rfl⟩

theorem coreShape_trans {S U : Type} {a b c : Inner S U}
    (h1 : coreShape a b) (h2 : coreShape b c) : coreShape a c := by
  obtain ⟨y1, s1, rfl⟩ := h1
  obtain ⟨y2, s2, rfl⟩ := h2
  exact ⟨y2, s2, rfl⟩

theorem coreShape_yamux {S U : Type} (a : Inner S U) (y : Ymx (Slot S U)) :
    coreShape a { a with yamux := y } :=
  ⟨y, a.substreamToProcess, rfl⟩

theorem coreShape.nextPing {S U : Type} {a b : Inner S U}
    (h : coreShape a b) : b.nextPing = a.nextPing := by
  obtain ⟨y, s, rfl⟩ := h
  rfl

/-! ## Helper lemmas about the driver components -/

/-- Unconditional unfolding equation for the outbound flush loop. -/
theorem drainOut_stepeq {A : Type} (y : Ymx A) (rw : RW) :
    drainOut y rw =
      match y.extractNext (rw.write_bytes_queueable.getD 0) with
      | none => (y, rw)
      | some (buf, y') => drainOut y' (rw.writeOut buf) := by
  rw [drainOut.eq_def]
  rcases h : y.extractNext (rw.write_bytes_queueable.getD 0) with _ | ⟨buf, y'⟩ <;>
    simp [h]

/-- The outbound flush leaves the clock and the wake-up deadline of the
scratchpad untouched. -/
theorem drainOut_now_wake {A : Type} (y : Ymx A) (rw : RW) :
    (drainOut y rw).2.now = rw.now ∧
    (drainOut y rw).2.wake_up_after = rw.wake_up_after := by
  induction y, rw using drainOut.induct with
  | case1 y rw h => rw [drainOut_stepeq, h]; exact ⟨rfl, rfl⟩
  | case2 y rw buf y' h ih =>
      rw [drainOut_stepeq, h]
      simpa [RW.now_writeOut, RW.wake_writeOut] using ih

/-- `process_substream` only touches the yamux state; the scratchpad it
returns differs from the caller's only by a possibly tightened wake-up. -/
theorem processSubstream_shape {S U : Type} (ops : SubstreamOps S)
    (inner : Inner S U) (rw : RW) (id : Nat) (inner' : Inner S U)
    (rw' : RW) (ca : Bool) (ev : Option (Event U))
    (h : processSubstream ops inner rw id = some (inner', rw', ca, ev)) :
    (∃ y, inner' = { inner with yamux := y }) ∧
    rw'.now = rw.now ∧ wakeLe rw'.wake_up_after rw.wake_up_after := by
  unfold processSubstream at h
  split at h
  · exact absurd h (by simp)
  · obtain ⟨rfl, rfl, rfl, rfl⟩ := by simpa using h
    exact ⟨⟨inner.yamux, by rfl⟩, rfl, wakeLe_refl _⟩
  · dsimp only at h
    split at h
    · exact absurd h (by simp)
    · split at h
      · exact absurd h (by simp)
      · split at h
        · exact absurd h (by simp)
        · split at h
          · exact absurd h (by simp)
          · obtain ⟨rfl, rfl, rfl, rfl⟩ := by simpa using h
            refine ⟨⟨_, rfl⟩, ?_, ?_⟩
            · split <;> simp [RW.now_wakeUpAfter]
            · split
              · exact wakeLe_wakeUpAfter _ _
              · exact wakeLe_refl _

/-- The pre-flush pass only touches the yamux state and preserves the
scratchpad clock. -/
theorem preFlush_shape {S U : Type} (ops : SubstreamOps S) :
    ∀ (ids : List Nat) (inner : Inner S U) (rw : RW)
      (res : (Inner S U × RW) ⊕ (Inner S U × RW × Event U)),
      preFlush ops inner rw ids = some res →
      (∃ y, preFlushInner res = { inner with yamux := y }) ∧
      (preFlushRW res).now = rw.now := by
  intro ids
  induction ids with
  | nil =>
      intro inner rw res h
      obtain rfl := by simpa [preFlush] using h
      exact ⟨⟨inner.yamux, rfl⟩, rfl⟩
  | cons id rest ih =>
      intro inner rw res h
      unfold preFlush at h
      split at h
      · exact absurd h (by simp)
      · obtain rfl := by simpa using h
        rename_i inner' rw' callAgain e hproc
        obtain ⟨⟨y, hy⟩, hnow, _⟩ :=
          processSubstream_shape ops inner rw id inner' rw' callAgain
            (some e) hproc
        exact ⟨⟨y, by simpa [preFlushInner] using hy⟩,
          by simpa [preFlushRW] using hnow⟩
      · rename_i inner' rw' callAgain hproc
        obtain ⟨⟨y, hy⟩, hnow, _⟩ :=
          processSubstream_shape ops inner rw id inner' rw' callAgain
            none hproc
        obtain ⟨⟨y2, hy2⟩, hnow2⟩ := ih inner'
          (if callAgain then rw'.wakeUpAsap else rw') res h
        subst hy
        refine ⟨⟨y2, hy2⟩, ?_⟩
        rw [hnow2]
        cases callAgain <;> simp [RW.now_wakeUpAsap, hnow]

/-- The ping-scheduling step, when it proceeds into the main loop: the
new deadline is no earlier than the old one; when the ping fired, it is
exactly `now + ping_interval`, otherwise unchanged; a wake-up no later
than the new deadline is registered; and the configured interval is
unchanged. -/
theorem pingStep_proceed {S U : Type} (ops : SubstreamOps S)
    (inner : Inner S U) (rw : RW) (i2 : Inner S U) (r2 : RW)
    (h : pingStep ops inner rw = some (PingStepResult.proceed i2 r2)) :
    inner.nextPing ≤ i2.nextPing ∧
    (inner.nextPing ≤ rw.now → i2.nextPing = rw.now + inner.pingInterval) ∧
    (¬ inner.nextPing ≤ rw.now → i2.nextPing = inner.nextPing) ∧
    (∃ u, r2.wake_up_after = some u ∧ u ≤ i2.nextPing) ∧
    r2.now = rw.now := by
  unfold pingStep at h
  split at h
  · rename_i hfired
    dsimp only at h
    split at h
    · split at h
      · obtain ⟨rfl, rfl⟩ := by simpa using h
        refine ⟨by dsimp only; omega, fun _ => rfl,
          fun hn => absurd hfired hn, ?_, rfl⟩
        exact wakeUpAfter_le rw _
      · exact absurd h (by simp)
      · exact absurd h (by simp)
    · exact absurd h (by simp)
  · rename_i hnot
    obtain ⟨rfl, rfl⟩ := by simpa using h
    exact ⟨le_refl _, fun hc => absurd hc hnot, fun _ => rfl,
      wakeUpAfter_le rw _, rfl⟩

/-- The ping-scheduling step, when it returns `PingOutFailed` early: the
ping had fired, the deadline was advanced to exactly
`now + ping_interval`, the outgoing-ping substream was absent, and the
scratchpad is returned untouched. -/
theorem pingStep_failed {S U : Type} (ops : SubstreamOps S)
    (inner : Inner S U) (rw : RW) (i2 : Inner S U) (r2 : RW)
    (h : pingStep ops inner rw = some (PingStepResult.failed i2 r2)) :
    inner.nextPing ≤ rw.now ∧
    i2.nextPing = rw.now + inner.pingInterval ∧
    inner.yamux.hasSubstream inner.outgoingPings = false ∧
    r2 = rw := by
  unfold pingStep at h
  split at h
  · rename_i hfired
    dsimp only at h
    split at h
    · split at h
      · exact absurd h (by simp)
      · exact absurd h (by simp)
      · exact absurd h (by simp)
    · rename_i habsent
      obtain ⟨rfl, rfl⟩ := by simpa using h
      exact ⟨hfired, rfl, by simpa using habsent, rfl⟩
  · exact absurd h (by simp)

/-- The `Reset` sweep arm only touches the yamux state and leaves the
scratchpad untouched. -/
theorem sweepResetStep_shape {S U : Type} (ops : SubstreamOps S)
    (inner : Inner S U) (rw : RW) (id : Nat) (inner' : Inner S U)
    (rw' : RW) (ev : Option (Event U))
    (h : sweepResetStep ops inner rw id = some ((inner', rw'), ev)) :
    (∃ y, inner' = { inner with yamux := y }) ∧ rw' = rw := by
  unfold sweepResetStep at h
  dsimp only at h
  split at h
  · split at h
    · split at h
      · exact absurd h (by simp)
      · obtain ⟨⟨rfl, rfl⟩, rfl⟩ := by simpa using h
        exact ⟨⟨_, rfl⟩, rfl⟩
    · obtain ⟨⟨rfl, rfl⟩, rfl⟩ := by simpa using h
      exact ⟨⟨_, rfl⟩, rfl⟩
  · obtain ⟨⟨rfl, rfl⟩, rfl⟩ := by simpa using h
    exact ⟨⟨_, rfl⟩, rfl⟩

/-- The `ClosedGracefully` sweep arm only touches the yamux state; the
scratchpad keeps its clock and only tightens its wake-up. -/
theorem sweepGracefulStep_shape {S U : Type} (ops : SubstreamOps S)
    (inner : Inner S U) (rw : RW) (id : Nat) (mc : Bool)
    (inner' : Inner S U) (rw' : RW) (mc' : Bool) (ev : Option (Event U))
    (h : sweepGracefulStep ops inner rw id mc = some ((inner', rw', mc'), ev)) :
    (∃ y, inner' = { inner with yamux := y }) ∧
    rw'.now = rw.now ∧ wakeLe rw'.wake_up_after rw.wake_up_after := by
  unfold sweepGracefulStep at h
  split at h
  · exact absurd h (by simp)
  · obtain ⟨⟨rfl, rfl, rfl⟩, rfl⟩ := by simpa using h
    exact ⟨⟨_, rfl⟩, rfl, wakeLe_refl _⟩
  · dsimp only at h
    split at h
    · exact absurd h (by simp)
    · split at h
      · obtain ⟨⟨rfl, rfl, rfl⟩, rfl⟩ := by simpa using h
        refine ⟨⟨_, rfl⟩, ?_, ?_⟩
        · split <;> simp [RW.now_wakeUpAfter]
        · split
          · exact wakeLe_wakeUpAfter _ _
          · exact wakeLe_refl _
      · obtain ⟨⟨rfl, rfl, rfl⟩, rfl⟩ := by simpa using h
        refine ⟨⟨_, rfl⟩, ?_, ?_⟩
        · split <;> simp [RW.now_wakeUpAfter]
        · split
          · exact wakeLe_wakeUpAfter _ _
          · exact wakeLe_refl _

/-- The dead-substream sweep only touches the yamux state; the scratchpad
keeps its clock and only tightens its wake-up. -/
theorem sweep_shape {S U : Type} (ops : SubstreamOps S) :
    ∀ (l : List (Nat × DeadTy)) (inner : Inner S U) (rw : RW) (mc : Bool)
      (res : (Inner S U × RW × Bool) ⊕ (Inner S U × RW × Event U)),
      sweep ops l inner rw mc = some res →
      (∃ y, sweepInner res = { inner with yamux := y }) ∧
      (sweepRW res).now = rw.now ∧
      wakeLe (sweepRW res).wake_up_after rw.wake_up_after := by
  intro l
  induction l with
  | nil =>
      intro inner rw mc res h
      obtain rfl := by simpa [sweep] using h
      exact ⟨⟨inner.yamux, rfl⟩, rfl, wakeLe_refl _⟩
  | cons p rest ih =>
      intro inner rw mc res h
      obtain ⟨id, ty⟩ := p
      cases ty with
      | reset =>
          unfold sweep at h
          split at h
          · exact absurd h (by simp)
          · rename_i inner' rw' e hstep
            obtain rfl := by simpa using h
            obtain ⟨⟨y, hy⟩, rfl⟩ :=
              sweepResetStep_shape ops inner rw id inner' rw' (some e) hstep
            exact ⟨⟨y, by simpa [sweepInner] using hy⟩, rfl, wakeLe_refl _⟩
          · rename_i inner' rw' hstep
            obtain ⟨⟨y, hy⟩, rfl⟩ :=
              sweepResetStep_shape ops inner rw id inner' rw' none hstep
            obtain ⟨⟨y2, hy2⟩, hnow, hwake⟩ := ih inner' rw' true res h
            subst hy
            exact ⟨⟨y2, hy2⟩, hnow, hwake⟩
      | closedGracefully =>
          unfold sweep at h
          split at h
          · exact absurd h (by simp)
          · rename_i inner' rw' mc2 e hstep
            obtain rfl := by simpa using h
            obtain ⟨⟨y, hy⟩, hnow, hwake⟩ :=
              sweepGracefulStep_shape ops inner rw id mc inner' rw' mc2
                (some e) hstep
            exact ⟨⟨y, by simpa [sweepInner] using hy⟩,
              by simpa [sweepRW] using hnow,
              by simpa [sweepRW] using hwake⟩
          · rename_i inner' rw' mc2 hstep
            obtain ⟨⟨y, hy⟩, hnow, hwake⟩ :=
              sweepGracefulStep_shape ops inner rw id mc inner' rw' mc2
                none hstep
            obtain ⟨⟨y2, hy2⟩, hnow2, hwake2⟩ := ih inner' rw' mc2 res h
            subst hy
            exact ⟨⟨y2, hy2⟩, by rw [hnow2, hnow],
              wakeLe_trans hwake2 hwake⟩

/-- The detail dispatch only touches the yamux state and the
substream-to-process pointer; the scratchpad keeps its clock and its
wake-up deadline. -/
theorem dispatchDetail_shape {S U : Type} (ops : SubstreamOps S)
    (inner : Inner S U) (rw : RW) (mc : Bool) (n : Nat)
    (d : Option Detail)
    (res : (Inner S U × RW × Bool) ⊕ LoopStep S U)
    (h : dispatchDetail ops inner rw mc n d = some res) :
    (∀ i r m, res = Sum.inl (i, r, m) →
      coreShape inner i ∧ r.now = rw.now ∧
        r.wake_up_after = rw.wake_up_after) ∧
    (∀ step, res = Sum.inr step →
      ∀ i r, stepInner step = some i → stepRW step = some r →
        coreShape inner i ∧ r.now = rw.now ∧
          r.wake_up_after = rw.wake_up_after) := by
  rcases d with _ | d
  · simp only [dispatchDetail] at h
    split at h <;>
      · obtain rfl := by simpa using h
        refine ⟨?_, by simp⟩
        rintro i r m hr
        obtain ⟨rfl, rfl, rfl⟩ := by simpa using hr
        exact ⟨coreShape_refl inner, by simp [RW.now_incomingBytesTake,
          RW.wake_incomingBytesTake]⟩
  · cases d with
    | incomingSubstream =>
        simp only [dispatchDetail] at h
        split at h
        · split at h
          · exact absurd h (by simp)
          · obtain rfl := by simpa using h
            refine ⟨by simp, ?_⟩
            rintro step hs i r his hrs
            obtain rfl := by simpa using hs
            obtain rfl := by simpa [stepInner] using his
            obtain rfl := by simpa [stepRW] using hrs
            exact ⟨⟨_, _, rfl⟩, rfl, rfl⟩
        · split at h
          · exact absurd h (by simp)
          · obtain rfl := by simpa using h
            refine ⟨?_, by simp⟩
            rintro i r m hr
            obtain ⟨rfl, rfl, rfl⟩ := by simpa using hr
            exact ⟨⟨_, _, rfl⟩, rfl, rfl⟩
    | streamReset sId =>
        simp only [dispatchDetail] at h
        obtain rfl := by simpa using h
        refine ⟨?_, by simp⟩
        rintro i r m hr
        obtain ⟨rfl, rfl, rfl⟩ := by simpa using hr
        exact ⟨coreShape_refl inner, rfl, rfl⟩
    | streamClosed sId =>
        simp only [dispatchDetail] at h
        obtain rfl := by simpa using h
        refine ⟨?_, by simp⟩
        rintro i r m hr
        obtain ⟨rfl, rfl, rfl⟩ := by simpa using hr
        exact ⟨coreShape_refl inner, rfl, rfl⟩
    | dataFrame so sId =>
        simp only [dispatchDetail] at h
        split at h
        · obtain rfl := by simpa using h
          refine ⟨?_, by simp⟩
          rintro i r m hr
          obtain ⟨rfl, rfl, rfl⟩ := by simpa using hr
          exact ⟨⟨_, _, rfl⟩, rfl, rfl⟩
        · exact absurd h (by simp)
    | goAway code =>
        simp only [dispatchDetail] at h
        obtain rfl := by simpa using h
        refine ⟨by simp, ?_⟩
        rintro step hs i r his hrs
        obtain rfl := by simpa using hs
        obtain rfl := by simpa [stepInner] using his
        obtain rfl := by simpa [stepRW] using hrs
        exact ⟨coreShape_refl inner, rfl, rfl⟩
    | pingResponse =>
        simp only [dispatchDetail] at h
        exact absurd h (by simp)

/-- The rest of a main-loop iteration only touches the yamux state and
the substream-to-process pointer; the scratchpad keeps its clock and only
tightens its wake-up. -/
theorem loopRest_shape {S U : Type} (ops : SubstreamOps S)
    (inner : Inner S U) (rw : RW) (mc : Bool) (step : LoopStep S U)
    (h : loopRest ops inner rw mc = some step) :
    ∀ i r, stepInner step = some i → stepRW step = some r →
      coreShape inner i ∧ r.now = rw.now ∧
        wakeLe r.wake_up_after rw.wake_up_after := by
  unfold loopRest at h
  split at h
  · obtain rfl := by simpa using h
    intro i r his hrs
    simp [stepInner] at his
  · dsimp only at h
    split at h
    · exact absurd h (by simp)
    · rename_i st hdisp
      obtain rfl := by simpa using h
      intro i r his hrs
      obtain ⟨_, h2⟩ := dispatchDetail_shape ops _ rw _ _ _ _ hdisp
      obtain ⟨hcore, hnow, hwake⟩ := h2 st rfl i r his hrs
      exact ⟨coreShape_trans (coreShape_yamux inner _) hcore, hnow,
        wakeLe_of_eq hwake⟩
    · rename_i i2 r2 mc2 hdisp
      obtain ⟨h1, _⟩ := dispatchDetail_shape ops _ rw _ _ _ _ hdisp
      obtain ⟨hcore2, hnow2, hwake2⟩ := h1 i2 r2 mc2 rfl
      have hcore2' : coreShape inner i2 :=
        coreShape_trans (coreShape_yamux inner _) hcore2
      obtain ⟨hdnow, hdwake⟩ := drainOut_now_wake i2.yamux r2
      split at h
      · exact absurd h (by simp)
      · rename_i i3 r3 e hsweep
        obtain rfl := by simpa using h
        intro i r his hrs
        obtain rfl := by simpa [stepInner] using his
        obtain rfl := by simpa [stepRW] using hrs
        obtain ⟨⟨y3, hy3⟩, hnow3, hwake3⟩ :=
          sweep_shape ops _ _ _ _ _ hsweep
        simp only [sweepInner] at hy3
        simp only [sweepRW] at hnow3 hwake3
        have hstep2 : coreShape i2
            { i2 with yamux := (drainOut i2.yamux r2).1 } :=
          coreShape_yamux i2 _
        refine ⟨coreShape_trans (coreShape_trans hcore2' hstep2)
          ⟨y3, i2.substreamToProcess, hy3⟩, ?_, ?_⟩
        · rw [hnow3, hdnow, hnow2]
        · refine wakeLe_trans hwake3 ?_
          rw [hdwake, hwake2]
          exact wakeLe_refl _
      · rename_i i3 r3 mc3 hsweep
        obtain ⟨⟨y3, hy3⟩, hnow3, hwake3⟩ :=
          sweep_shape ops _ _ _ _ _ hsweep
        simp only [sweepInner] at hy3
        simp only [sweepRW] at hnow3 hwake3
        have hstep2 : coreShape i2
            { i2 with yamux := (drainOut i2.yamux r2).1 } :=
          coreShape_yamux i2 _
        have hfin : coreShape inner i3 :=
          coreShape_trans (coreShape_trans hcore2' hstep2)
            ⟨y3, i2.substreamToProcess, hy3⟩
        have hnowf : r3.now = rw.now := by rw [hnow3, hdnow, hnow2]
        have hwakef : wakeLe r3.wake_up_after rw.wake_up_after := by
          refine wakeLe_trans hwake3 ?_
          rw [hdwake, hwake2]
          exact wakeLe_refl _
        split at h <;>
          · obtain rfl := by simpa using h
            intro i r his hrs
            obtain rfl := by simpa [stepInner] using his
            obtain rfl := by simpa [stepRW] using hrs
            exact ⟨hfin, hnowf, hwakef⟩

/-- One main-loop iteration only touches the yamux state and the
substream-to-process pointer; the scratchpad keeps its clock and only
tightens its wake-up. -/
theorem loopBody_shape {S U : Type} (ops : SubstreamOps S)
    (inner : Inner S U) (rw : RW) (step : LoopStep S U)
    (h : loopBody ops inner rw = some step) :
    ∀ i r, stepInner step = some i → stepRW step = some r →
      coreShape inner i ∧ r.now = rw.now ∧
        wakeLe r.wake_up_after rw.wake_up_after := by
  unfold loopBody at h
  have hnow1 : ∀ b : Bool,
      (if b = true then rw.closeWrite else rw).now = rw.now := by
    intro b
    cases b <;> simp [RW.now_closeWrite]
  have hwake1 : ∀ b : Bool,
      (if b = true then rw.closeWrite else rw).wake_up_after =
        rw.wake_up_after := by
    intro b
    cases b <;> simp [RW.wake_closeWrite]
  dsimp only at h
  generalize hg : (if (inner.yamux.isEmpty && inner.yamux.goawaySentFlag &&
      inner.yamux.receivedGoawayCode.isSome) = true then rw.closeWrite
      else rw) = rw1 at h
  have hnowg : rw1.now = rw.now := by rw [← hg]; exact hnow1 _
  have hwakeg : rw1.wake_up_after = rw.wake_up_after := by
    rw [← hg]; exact hwake1 _
  split at h
  · rename_i id hstp
    split at h
    · obtain rfl := by simpa using h
      intro i r his hrs
      obtain rfl := by simpa [stepInner] using his
      obtain rfl := by simpa [stepRW] using hrs
      exact ⟨⟨inner.yamux, none, rfl⟩, hnowg, wakeLe_of_eq hwakeg⟩
    · split at h
      · exact absurd h (by simp)
      · rename_i i1 r1 ca ev hproc
        simp only [Bool.not_eq_true'] at h
        obtain ⟨⟨y1, hy1⟩, hnow2, hwake2⟩ :=
          processSubstream_shape ops inner rw1 id i1 r1 ca ev hproc
        have hcore1 : coreShape inner
            (if ca = false then { i1 with substreamToProcess := none }
             else i1) := by
          subst hy1
          cases ca <;> simp <;> exact ⟨_, _, rfl⟩
        have hnowc : r1.now = rw.now := by rw [hnow2, hnowg]
        have hwakec : wakeLe r1.wake_up_after rw.wake_up_after := by
          rw [← hwakeg]
          exact hwake2
        split at h
        · obtain rfl := by simpa using h
          intro i r his hrs
          obtain rfl := by simpa [stepInner] using his
          obtain rfl := by simpa [stepRW] using hrs
          exact ⟨hcore1, hnowc, hwakec⟩
        · split at h
          · obtain rfl := by simpa using h
            intro i r his hrs
            obtain rfl := by simpa [stepInner] using his
            obtain rfl := by simpa [stepRW] using hrs
            exact ⟨hcore1, hnowc, hwakec⟩
          · intro i r his hrs
            obtain ⟨hcore3, hnow3, hwake3⟩ :=
              loopRest_shape ops _ r1 false step h i r his hrs
            exact ⟨coreShape_trans hcore1 hcore3,
              by rw [hnow3, hnowc],
              wakeLe_trans hwake3 hwakec⟩
  · intro i r his hrs
    obtain ⟨hcore3, hnow3, hwake3⟩ :=
      loopRest_shape ops inner rw1 false step h i r his hrs
    refine ⟨hcore3, by rw [hnow3, hnowg], ?_⟩
    rw [← hwakeg]
    exact hwake3

/-- The main loop only touches the yamux state and the
substream-to-process pointer; on a normal return the scratchpad keeps its
clock and only tightens its wake-up. -/
theorem mainLoop_ok {S U : Type} (ops : SubstreamOps S) :
    ∀ (fuel : Nat) (inner : Inner S U) (rw : RW) (i' : Inner S U)
      (r' : RW) (ev : Option (Event U)),
      mainLoop ops fuel inner rw = Outcome.ok i' r' ev →
      coreShape inner i' ∧ r'.now = rw.now ∧
        wakeLe r'.wake_up_after rw.wake_up_after := by
  intro fuel
  induction fuel with
  | zero =>
      intro inner rw i' r' ev h
      exact absurd h (by simp [mainLoop])
  | succ f ih =>
      intro inner rw i' r' ev h
      unfold mainLoop at h
      split at h
      · exact absurd h (by simp)
      · exact absurd h (by simp)
      · rename_i i1 r1 e1 hbody
        obtain ⟨rfl, rfl, rfl⟩ := by simpa using h
        exact loopBody_shape ops inner rw _ hbody i1 r1
          (by simp [stepInner]) (by simp [stepRW])
      · rename_i i1 r1 hbody
        obtain ⟨hc1, hn1, hw1⟩ := loopBody_shape ops inner rw _ hbody i1 r1
          (by simp [stepInner]) (by simp [stepRW])
        obtain ⟨hc2, hn2, hw2⟩ := ih i1 r1 i' r' ev h
        exact ⟨coreShape_trans hc1 hc2, by rw [hn2, hn1],
          wakeLe_trans hw2 hw1⟩

/-- C1: every invocation of `read_write` surfaces at most one event: a
normal return carries an `Option<Event>`, holding zero or one event, and
no invocation ever yields two. -/
theorem c1_at_most_one_event {S U : Type} (ops : SubstreamOps S)
    (fuel : Nat) (inner : Inner S U) (rw : RW) :
    eventsReturned (readWrite ops fuel inner rw) ≤ 1 := by
  cases h : readWrite ops fuel inner rw with
  | ok i r ev => cases ev <;> simp [eventsReturned]
  | fatal r e => simp [eventsReturned]
  | panicked => simp [eventsReturned]
  | outOfFuel i r => simp [eventsReturned]

/-- C4: on every normally-returning invocation of `read_write`,
`next_ping` does not decrease; and whenever the ping-scheduling step is
reached (the pre-flush pass yielded no event) with `now` at or past
`next_ping`, the deadline is set to exactly `now + ping_interval`. -/
theorem c4_next_ping {S U : Type} (ops : SubstreamOps S) (fuel : Nat)
    (inner : Inner S U) (rw : RW) (i' : Inner S U) (r' : RW)
    (ev : Option (Event U))
    (h : readWrite ops fuel inner rw = Outcome.ok i' r' ev) :
    inner.nextPing ≤ i'.nextPing ∧
    (∀ i1 r1,
      preFlush ops inner rw (inner.yamux.substreams.map Prod.fst) =
        some (Sum.inl (i1, r1)) →
      inner.nextPing ≤ rw.now →
      i'.nextPing = rw.now + inner.pingInterval) := by
  unfold readWrite at h
  split at h
  · exact absurd h (by simp)
  · rename_i ia ra ea hpf
    obtain ⟨rfl, rfl, rfl⟩ := by simpa using h
    obtain ⟨⟨y, hy⟩, _⟩ := preFlush_shape ops _ inner rw _ hpf
    simp only [preFlushInner] at hy
    constructor
    · rw [hy]
    · intro i1 r1 hpf2 _
      rw [hpf2] at hpf
      exact absurd hpf (by simp)
  · rename_i ia ra hpf
    obtain ⟨⟨y, hy⟩, hnow⟩ := preFlush_shape ops _ inner rw _ hpf
    simp only [preFlushInner] at hy
    simp only [preFlushRW] at hnow
    have hping : ia.nextPing = inner.nextPing := by rw [hy]
    have hint : ia.pingInterval = inner.pingInterval := by rw [hy]
    split at h
    · exact absurd h (by simp)
    · rename_i i2 r2 hfail
      obtain ⟨rfl, rfl, rfl⟩ := by simpa using h
      obtain ⟨hfired, hset, _, _⟩ := pingStep_failed ops ia ra i2 r2 hfail
      rw [hnow, hint] at hset
      rw [hping, hnow] at hfired
      exact ⟨by omega, fun _ _ _ _ => hset⟩
    · rename_i i2 r2 hproc
      obtain ⟨hmono, hexact, _, _, _⟩ :=
        pingStep_proceed ops ia ra i2 r2 hproc
      obtain ⟨hc, _, _⟩ := mainLoop_ok ops fuel i2 r2 i' r' ev h
      have hpe : i'.nextPing = i2.nextPing := hc.nextPing
      rw [hping] at hmono
      rw [hping, hnow, hint] at hexact
      constructor
      · omega
      · intro i1 r1 hpf2 hfired
        rw [hpe]
        exact hexact hfired

/-- C3 counterexample: on a state whose outgoing-ping substream has been
reset away and whose ping deadline has passed, `read_write` returns
`PingOutFailed` while leaving `wake_up_after` unset — no wake-up at
`next_ping` is registered, contradicting the claim that one always
is. -/
theorem c3_counterexample :
    c3probe = some (none, some Event.pingOutFailed) := by
  simp [c3probe, readWrite, preFlush, pingStep, mainLoop, loopBody,
    loopRest, dispatchDetail, drainOut_stepeq, sweep, c3Inner, c3RW,
    unitOps, Ymx.hasSubstream, Ymx.incomingData, Ymx.deadSubstreams,
    Ymx.extractNext, Ymx.isEmpty, RW.wakeUpAfter]

/-- C3 (amended): on every invocation that reaches the ping-scheduling
step (the pre-flush pass yielded no event) and does not return
`Event::PingOutFailed` there — the deadline has not passed, or the
outgoing-ping substream is still present — every normal return carries a
wake-up deadline at most `next_ping`.  (When `PingOutFailed` is returned
at that step, no wake-up is registered, as the counterexample shows.) -/
theorem c3_wakeup_amended {S U : Type} (ops : SubstreamOps S)
    (fuel : Nat) (inner : Inner S U) (rw : RW) (i1 : Inner S U) (r1 : RW)
    (i' : Inner S U) (r' : RW) (ev : Option (Event U))
    (hpf : preFlush ops inner rw (inner.yamux.substreams.map Prod.fst) =
      some (Sum.inl (i1, r1)))
    (hnf : rw.now < inner.nextPing ∨
      i1.yamux.hasSubstream i1.outgoingPings = true)
    (h : readWrite ops fuel inner rw = Outcome.ok i' r' ev) :
    ∃ t, r'.wake_up_after = some t ∧ t ≤ i'.nextPing := by
  obtain ⟨⟨y, hy⟩, hnow⟩ := preFlush_shape ops _ inner rw _ hpf
  simp only [preFlushInner] at hy
  simp only [preFlushRW] at hnow
  unfold readWrite at h
  rw [hpf] at h
  dsimp only at h
  have hping : i1.nextPing = inner.nextPing := by rw [hy]
  split at h
  · exact absurd h (by simp)
  · rename_i i2 r2 hfail
    obtain ⟨hfired, _, habsent, _⟩ := pingStep_failed ops i1 r1 i2 r2 hfail
    rcases hnf with hlt | hpresent
    · rw [hping] at hfired
      rw [hnow] at hfired
      omega
    · have : i1.yamux.hasSubstream i1.outgoingPings = false := habsent
      rw [hpresent] at this
      exact absurd this (by simp)
  · rename_i i2 r2 hproc
    obtain ⟨_, _, _, ⟨u, hu, hule⟩, _⟩ :=
      pingStep_proceed ops i1 r1 i2 r2 hproc
    obtain ⟨hc, _, hwake⟩ := mainLoop_ok ops fuel i2 r2 i' r' ev h
    obtain ⟨t, ht, htu⟩ := hwake u hu
    refine ⟨t, ht, ?_⟩
    rw [hc.nextPing]
    omega

/-- Witness for C4 at a concrete state whose ping deadline (3) has
passed at clock 5 with a ping interval of 10. -/
theorem c4_next_ping_witness :
    c3Inner.nextPing ≤
      ({ c3Inner with nextPing := 15 } : Inner Unit Unit).nextPing ∧
    ({ c3Inner with nextPing := 15 } : Inner Unit Unit).nextPing =
      c3RW.now + c3Inner.pingInterval := by
  have h := c4_next_ping unitOps 1 c3Inner c3RW
    { c3Inner with nextPing := 15 } c3RW (some Event.pingOutFailed)
    (by simp [readWrite, preFlush, pingStep, c3Inner, c3RW, unitOps,
      Ymx.hasSubstream])
  exact ⟨h.1, h.2 c3Inner c3RW rfl (by decide)⟩

/-- Witness for the amended C3 at a concrete idle state whose ping
deadline (5) is still ahead of the clock (0). -/
theorem c3_wakeup_amended_witness :
    (RW.wakeUpAfter w3RW 5).wake_up_after = some 5 ∧
    5 ≤ w3Inner.nextPing := by
  obtain ⟨t, ht, hle⟩ := c3_wakeup_amended unitOps 1 w3Inner w3RW
    w3Inner w3RW w3Inner (RW.wakeUpAfter w3RW 5) none rfl
    (Or.inl (by decide))
    (by simp [readWrite, preFlush, pingStep, mainLoop, loopBody, loopRest,
      dispatchDetail, drainOut_stepeq, sweep, w3Inner, w3RW, unitOps,
      Ymx.hasSubstream, Ymx.incomingData, Ymx.deadSubstreams,
      Ymx.extractNext, Ymx.isEmpty, RW.wakeUpAfter])
  have hw : (RW.wakeUpAfter w3RW 5).wake_up_after = some 5 := rfl
  rw [hw] at ht
  obtain rfl : t = 5 := Option.some.inj ht.symm
  exact ⟨hw, hle⟩

/-- C10: for every call to `stream_message` on a live stream, an empty
message, or a message arriving while the buffered total is already at
least 25 MiB, leaves the message queue and the total-size counter
unchanged; otherwise the message is appended and the counter grows by
exactly its length; consequently a queue holding no empty message never
comes to hold one. -/
theorem c10_stream_message (s : PStream) (message : Bytes) :
    ((message = [] ∨ STREAM_QUEUE_LIMIT ≤ s.messagesQueueTotalSize) →
      (streamMessage s message).messagesQueue = s.messagesQueue ∧
      (streamMessage s message).messagesQueueTotalSize =
        s.messagesQueueTotalSize) ∧
    (message ≠ [] → s.messagesQueueTotalSize < STREAM_QUEUE_LIMIT →
      (streamMessage s message).messagesQueue = s.messagesQueue ++ [message] ∧
      (streamMessage s message).messagesQueueTotalSize =
        s.messagesQueueTotalSize + message.length) ∧
    ((∀ m ∈ s.messagesQueue, m ≠ []) →
      ∀ m ∈ (streamMessage s message).messagesQueue, m ≠ []) := by
  refine ⟨?_, ?_, ?_⟩
  · rintro (h | h) <;> simp [streamMessage, h]
  · intro hne hlt
    simp [streamMessage, hne, not_le.mpr hlt, List.isEmpty_iff]
  · intro hq m hm
    by_cases he : message.isEmpty
    · simp only [streamMessage, he, if_true] at hm
      exact hq m hm
    · by_cases hl : STREAM_QUEUE_LIMIT ≤ s.messagesQueueTotalSize
      · simp only [streamMessage, he, hl, if_true, if_false, Bool.false_eq_true] at hm
        exact hq m hm
      · simp only [streamMessage, he, hl, if_true, if_false, Bool.false_eq_true,
          if_neg] at hm
        rcases List.mem_append.mp hm with h | h
        · exact hq m h
        · rcases List.mem_singleton.mp h with rfl
          simpa [List.isEmpty_iff] using he

/-- Witness for C10 at a concrete live stream and message. -/
theorem c10_stream_message_witness :
    (streamMessage ⟨false, [], 0, 0⟩ [1]).messagesQueue = [[1]] ∧
    (streamMessage ⟨false, [], 0, 0⟩ [1]).messagesQueueTotalSize = 1 := by
  have h := (c10_stream_message ⟨false, [], 0, 0⟩ [1]).2.1
    (by decide) (by decide)
  simpa using h

/-- C8: every multiaddress made of a dns, dns4 or dns6 component with a
UTF-8 host, a tcp component, and then either a single wss component or a
tls component followed by a ws component, parses to
`Address::WebSocketDns` with that hostname and port and `secure = true`,
and both spellings yield the same result. -/
theorem c8_wss_tls_ws (mk : Bytes → ProtocolRef)
    (hmk : mk = ProtocolRef.dns ∨ mk = ProtocolRef.dns4 ∨
      mk = ProtocolRef.dns6)
    (host : Bytes) (port : Nat) (hutf : utf8Valid host = true) :
    multiaddrToAddress [mk host, ProtocolRef.tcp port, ProtocolRef.wss] =
      Except.ok (AddressOrMultiStreamAddress.address
        (Address.webSocketDns host port true)) ∧
    multiaddrToAddress
        [mk host, ProtocolRef.tcp port, ProtocolRef.tls, ProtocolRef.ws] =
      Except.ok (AddressOrMultiStreamAddress.address
        (Address.webSocketDns host port true)) ∧
    multiaddrToAddress [mk host, ProtocolRef.tcp port, ProtocolRef.wss] =
      multiaddrToAddress
        [mk host, ProtocolRef.tcp port, ProtocolRef.tls, ProtocolRef.ws] := by
  rcases hmk with rfl | rfl | rfl <;>
    simp [multiaddrToAddress, matchProtocols, dnsAddr, hutf]

/-- Witness for C8 at the host "example" and port 443. -/
theorem c8_wss_tls_ws_witness :
    multiaddrToAddress
        [ProtocolRef.dns [101, 120, 97, 109, 112, 108, 101],
         ProtocolRef.tcp 443, ProtocolRef.wss] =
      Except.ok (AddressOrMultiStreamAddress.address
        (Address.webSocketDns [101, 120, 97, 109, 112, 108, 101] 443
          true)) := by
  exact (c8_wss_tls_ws ProtocolRef.dns (Or.inl rfl)
    [101, 120, 97, 109, 112, 108, 101] 443 (by decide)).1

/-- C9: for every multiaddress ip4-or-ip6 / udp / webrtc-direct /
certhash: a certhash whose multihash code is not 12 yields
`NonSha256Certhash`; code 12 with data not exactly 32 bytes yields
`InvalidMultihashLength`; otherwise a WebRtc multi-stream address carrying
the ip, port and 32-byte certificate hash is returned. -/
theorem c9_webrtc_certhash (isV6 : Bool) (ip port : Nat) (mh : Multihash) :
    (mh.code ≠ 12 →
      multiaddrToAddress
          [if isV6 then ProtocolRef.ip6 ip else ProtocolRef.ip4 ip,
           ProtocolRef.udp port, ProtocolRef.webRtcDirect,
           ProtocolRef.certhash mh] =
        Except.error AddrError.nonSha256Certhash) ∧
    (mh.code = 12 → mh.data.length ≠ 32 →
      multiaddrToAddress
          [if isV6 then ProtocolRef.ip6 ip else ProtocolRef.ip4 ip,
           ProtocolRef.udp port, ProtocolRef.webRtcDirect,
           ProtocolRef.certhash mh] =
        Except.error AddrError.invalidMultihashLength) ∧
    (mh.code = 12 → mh.data.length = 32 →
      multiaddrToAddress
          [if isV6 then ProtocolRef.ip6 ip else ProtocolRef.ip4 ip,
           ProtocolRef.udp port, ProtocolRef.webRtcDirect,
           ProtocolRef.certhash mh] =
        Except.ok (AddressOrMultiStreamAddress.multiStreamAddress
          (MultiStreamAddress.webRtc
            (if isV6 then IpAddr.v6 ip else IpAddr.v4 ip) port
            mh.data))) := by
  refine ⟨?_, ?_, ?_⟩ <;> cases isV6 <;> intro h1 <;>
    first
      | (intro h2
         simp [multiaddrToAddress, matchProtocols, h1, h2])
      | simp [multiaddrToAddress, matchProtocols, h1]

/-- Witness for C9: a certhash with hash-algorithm code 11 is rejected as
non-SHA-256. -/
theorem c9_webrtc_certhash_witness :
    multiaddrToAddress
        [ProtocolRef.ip4 7, ProtocolRef.udp 9, ProtocolRef.webRtcDirect,
         ProtocolRef.certhash ⟨11, []⟩] =
      Except.error AddrError.nonSha256Certhash := by
  exact (c9_webrtc_certhash false 7 9 ⟨11, []⟩).1 (by decide)

/-! ## Lookup lemmas for the yamux point updates -/

/-- Looking an id up after a key-preserving point update. -/
theorem lookup_mapIf {A : Type} (id id' : Nat) (g : YSub A → YSub A) :
    ∀ l : List (Nat × YSub A),
      (l.map fun p => if p.1 = id then (p.1, g p.2) else p).lookup id' =
        (l.lookup id').map fun s => if id' = id then g s else s := by
  intro l
  induction l with
  | nil => rfl
  | cons p rest ih =>
      obtain ⟨k, v⟩ := p
      have hhead : (if (k, v).1 = id then ((k, v).1, g (k, v).2)
          else (k, v)) = (k, if k = id then g v else v) := by
        by_cases hk : k = id <;> simp [hk]
      rw [List.map_cons, hhead]
      by_cases h2 : id' = k
      · subst h2
        by_cases hk : id' = id <;>
          simp [List.lookup, beq_iff_eq, hk]
      · have hb : (id' == k) = false := by
          simp [h2]
        simp [List.lookup, hb, ih]

theorem Ymx.lookup_mapSub {A : Type} (y : Ymx A) (id id' : Nat)
    (g : YSub A → YSub A) :
    (y.mapSub id g).substreams.lookup id' =
      (y.substreams.lookup id').map fun s => if id' = id then g s else s :=
  lookup_mapIf id id' g y.substreams

theorem Ymx.hasSubstream_mapSub {A : Type} (y : Ymx A) (id id' : Nat)
    (g : YSub A → YSub A) :
    (y.mapSub id g).hasSubstream id' = y.hasSubstream id' := by
  unfold Ymx.hasSubstream
  rw [show (y.mapSub id g).substreams.lookup id' =
      (y.substreams.lookup id').map fun s => if id' = id then g s else s
    from Ymx.lookup_mapSub y id id' g]
  cases y.substreams.lookup id' <;> rfl

theorem Ymx.hasSubstream_setUserData {A : Type} (y : Ymx A) (id id' : Nat)
    (a : A) : (y.setUserData id a).hasSubstream id' = y.hasSubstream id' :=
  Ymx.hasSubstream_mapSub y id id' _

theorem Ymx.hasSubstream_addRemoteWindow {A : Type} (y : Ymx A)
    (id id' : Nat) (n : Nat) :
    (y.addRemoteWindowSaturating id n).hasSubstream id' =
      y.hasSubstream id' :=
  Ymx.hasSubstream_mapSub y id id' _

theorem Ymx.userData_setUserData_self {A : Type} (y : Ymx A) (id : Nat)
    (a : A) (h : y.hasSubstream id = true) :
    (y.setUserData id a).userData id = some a := by
  unfold Ymx.userData Ymx.setUserData
  rw [Ymx.lookup_mapSub]
  unfold Ymx.hasSubstream at h
  rcases hl : y.substreams.lookup id with _ | s
  · rw [hl] at h
    simp at h
  · simp

theorem Ymx.hasSubstream_eq_of_substreams {A : Type} (y1 y2 : Ymx A)
    (h : y1.substreams = y2.substreams) (id : Nat) :
    y1.hasSubstream id = y2.hasSubstream id := by
  unfold Ymx.hasSubstream
  rw [h]

theorem Ymx.hasSubstream_write {A : Type} {y y' : Ymx A} (id : Nat)
    (b : Bytes) (h : y.write id b = some y') (id' : Nat) :
    y'.hasSubstream id' = y.hasSubstream id' := by
  unfold Ymx.write at h
  split at h
  · obtain rfl := by simpa using h
    refine Eq.trans (Ymx.hasSubstream_eq_of_substreams _
      (y.mapSub id fun s =>
        { s with queuedBytes := s.queuedBytes + b.length }) rfl id') ?_
    exact Ymx.hasSubstream_mapSub y id id' _
  · exact absurd h (by simp)

theorem hasSubstream_writeBuffers {A : Type} (id' : Nat) :
    ∀ (bufs : List Bytes) (y y' : Ymx A) (id : Nat),
      writeBuffers y id bufs = some y' →
      y'.hasSubstream id' = y.hasSubstream id' := by
  intro bufs
  induction bufs with
  | nil =>
      intro y y' id h
      obtain rfl := by simpa [writeBuffers] using h
      rfl
  | cons b rest ih =>
      intro y y' id h
      unfold writeBuffers at h
      split at h
      · exact ih y y' id h
      · split at h
        · exact absurd h (by simp)
        · rename_i y2 hw
          rw [ih y2 y' id h]
          exact Ymx.hasSubstream_write id b hw id'

theorem Ymx.hasSubstream_close {A : Type} {y y' : Ymx A} (id : Nat)
    (h : y.close id = some y') (id' : Nat) :
    y'.hasSubstream id' = y.hasSubstream id' := by
  unfold Ymx.close at h
  split at h
  · obtain rfl := by simpa using h
    exact Ymx.hasSubstream_mapSub y id id' _
  · exact absurd h (by simp)

theorem Ymx.reset_dead {A : Type} {y y' : Ymx A} (id : Nat)
    (h : y.reset id = some y') :
    ∃ sub : YSub A, y'.substreams.lookup id = some sub ∧
      sub.dead = some DeadTy.reset := by
  unfold Ymx.reset at h
  split at h
  · rename_i hhas
    obtain rfl := by simpa using h
    rw [Ymx.lookup_mapSub]
    unfold Ymx.hasSubstream at hhas
    rcases hl : y.substreams.lookup id with _ | s
    · rw [hl] at hhas
      simp at hhas
    · simp
  · exact absurd h (by simp)

/-- If the slot of a substream is known, the substream is known to
yamux. -/
theorem hasSubstream_of_userData {A : Type} (y : Ymx A) (id : Nat) (a : A)
    (h : y.userData id = some a) : y.hasSubstream id = true := by
  unfold Ymx.userData at h
  unfold Ymx.hasSubstream
  rcases hl : y.substreams.lookup id with _ | s
  · rw [hl] at h
    simp at h
  · simp

/-! ## C2 -/

/-- C2 counterexample: running `read_write` over recording machines on a
state with a gracefully-dead substream whose machine is present shows
that the scratchpad handed to the machine's `read_write` in the sweep has
`write_bytes_queueable = None` — not `Some(usize::MAX)` as claimed. -/
theorem c2_counterexample :
    c2probe = some none ∧ c2probe ≠ some (some USIZEMAX) := by
  have h : c2probe = some none := by
    simp [c2probe, readWrite, preFlush, pingStep, mainLoop, loopBody,
      loopRest, dispatchDetail, drainOut_stepeq, sweep, c2Inner, c2RW,
      recOps, processSubstream, sweepGracefulStep, sweepResetStep,
      translateEvent, mkSubstreamRW, gracefulSweepRW, writeBuffers,
      Ymx.hasSubstream, Ymx.incomingData, Ymx.deadSubstreams,
      Ymx.extractNext, Ymx.isEmpty, Ymx.userData, Ymx.setUserData,
      Ymx.mapSub, Ymx.addRemoteWindowSaturating, Ymx.canReceive,
      Ymx.canSend, Ymx.removeDeadSubstream, RW.wakeUpAfter, satAdd64,
      List.lookup]
  rw [h]
  exact ⟨rfl, by simp⟩

/-- C2 (amended): in the graceful-close sweep, a substream whose machine
is still present has that machine's `read_write` invoked against a fresh
scratchpad whose incoming buffer is empty, whose read side is closed
(`expected_incoming_bytes = None`) and whose write side is also closed
(`write_bytes_queueable = None`, not `Some(usize::MAX)` as the claim
stated); the machine's `wake_up_after` is merged into the caller's
scratchpad. -/
theorem c2_graceful_sweep_amended {S U : Type} (ops : SubstreamOps S)
    (inner : Inner S U) (rw : RW) (id : Nat) (mc : Bool)
    (sm : S) (ud : Option U) (buf : Bytes)
    (hslot : inner.yamux.userData id = some (some (sm, ud, buf))) :
    (gracefulSweepRW rw.now).incoming_buffer = [] ∧
    (gracefulSweepRW rw.now).expected_incoming_bytes = none ∧
    (gracefulSweepRW rw.now).write_bytes_queueable = none ∧
    (gracefulSweepRW rw.now).now = rw.now ∧
    ∀ r, sweepGracefulStep ops inner rw id mc = some r →
      r.1.2.1 =
        (match (ops.readWrite sm (gracefulSweepRW rw.now)).1.wake_up_after
         with
         | some t => rw.wakeUpAfter t
         | none => rw) := by
  refine ⟨rfl, rfl, rfl, rfl, ?_⟩
  intro r hr
  unfold sweepGracefulStep at hr
  rw [hslot] at hr
  dsimp only at hr
  split at hr
  · exact absurd hr (by simp)
  · split at hr
    · obtain rfl := by simpa using hr
      rfl
    · obtain rfl := by simpa using hr
      rfl

/-- Witness for the amended C2 on a concrete gracefully-dead substream
with a unit machine. -/
theorem c2_graceful_sweep_amended_witness :
    (gracefulSweepRW w2RW.now).write_bytes_queueable = none ∧
    (sweepGracefulStep unitOps w2Inner w2RW 3 false).map
        (fun r => r.1.2.1) = some w2RW := by
  have h := c2_graceful_sweep_amended unitOps w2Inner w2RW 3 false ()
    none [] rfl
  refine ⟨h.2.2.1, ?_⟩
  rcases hr : sweepGracefulStep unitOps w2Inner w2RW 3 false with _ | r
  · exact absurd hr (by simp [sweepGracefulStep, w2Inner, w2RW, unitOps,
      translateEvent, Ymx.userData, Ymx.setUserData, Ymx.mapSub,
      gracefulSweepRW, List.lookup])
  · have hres := h.2.2.2.2 r hr
    exact congrArg some hres

/-! ## C5 -/

/-- C5: when yamux reports an `IncomingSubstream` detail: if the number
of inbound substreams has reached `max_inbound_substreams`, the pending
substream is rejected, no substream is created, and no event is returned
(the loop just continues); otherwise it is accepted as a fresh inbound
substream whose slot holds an `Ingoing` machine parameterised by
`max_protocol_name_len`, an absent user-data handle, and an empty read
buffer — and no event is returned either. -/
theorem c5_incoming_substream {S U : Type} (ops : SubstreamOps S)
    (inner : Inner S U) (rw : RW) (mc : Bool) (n : Nat)
    (hp : inner.yamux.pendingIncoming = true) :
    (inner.maxInboundSubstreams ≤ inner.yamux.numInbound →
      dispatchDetail ops inner rw mc n (some Detail.incomingSubstream) =
        some (Sum.inr (LoopStep.again
          { inner with yamux :=
              { inner.yamux with pendingIncoming := false } }
          (rw.incomingBytesTake n)))) ∧
    (inner.yamux.numInbound < inner.maxInboundSubstreams →
      dispatchDetail ops inner rw mc n (some Detail.incomingSubstream) =
        some (Sum.inl
          ({ inner with yamux :=
              { inner.yamux with
                pendingIncoming := false
                substreams := inner.yamux.substreams ++
                  [(inner.yamux.nextId,
                    { ud := some (ops.ingoing inner.maxProtocolNameLen,
                        none, []),
                      inbound := true, canReceive := true, canSend := true,
                      remoteWindow := Ymx.INITIAL_WINDOW, queuedBytes := 0,
                      dead := none })]
                nextId := inner.yamux.nextId + 1 } },
            rw.incomingBytesTake n, mc))) := by
  constructor
  · intro hge
    simp [dispatchDetail, hge, Ymx.rejectPendingSubstream, hp]
  · intro hlt
    have hnle : ¬ inner.maxInboundSubstreams ≤ inner.yamux.numInbound :=
      not_le.mpr hlt
    simp [dispatchDetail, hnle, Ymx.acceptPendingSubstream, hp]

/-- Witness for C5: a pending inbound substream below the limit is
accepted with a fresh machine, no user data and an empty buffer. -/
theorem c5_incoming_substream_witness :
    dispatchDetail unitOps w5Inner c3RW false 2
        (some Detail.incomingSubstream) =
      some (Sum.inl
        ({ w5Inner with yamux :=
            { w5Inner.yamux with
              pendingIncoming := false
              substreams := w5Inner.yamux.substreams ++
                [(w5Inner.yamux.nextId,
                  { ud := some (unitOps.ingoing w5Inner.maxProtocolNameLen,
                      none, []),
                    inbound := true, canReceive := true, canSend := true,
                    remoteWindow := Ymx.INITIAL_WINDOW, queuedBytes := 0,
                    dead := none })]
              nextId := w5Inner.yamux.nextId + 1 } },
          c3RW.incomingBytesTake 2, false)) :=
  (c5_incoming_substream unitOps w5Inner c3RW false 2 rfl).2 (by decide)

/-! ## C6 -/

/-- C6: in `process_substream`, after the substream machine's
`read_write`: if the machine reports a next state, it is reinserted into
its slot (with the remaining read buffer); otherwise, if the write side
is still open (the machine did not close it) or the read side is still
open, `yamux.reset(id)` is called, marking the substream dead by reset;
and the returned `call_again` flag is true iff the machine consumed at
least one byte, queued at least one byte to write, or an event is
yielded. -/
theorem c6_process_substream {S U : Type} (ops : SubstreamOps S)
    (inner : Inner S U) (rw : RW) (id : Nat) (sm : S) (ud : Option U)
    (buf : Bytes)
    (hslot : inner.yamux.userData id = some (some (sm, ud, buf)))
    (inner' : Inner S U) (rw' : RW) (ca : Bool) (evOut : Option (Event U))
    (hrun : processSubstream ops inner rw id =
      some (inner', rw', ca, evOut)) :
    (let y0 := inner.yamux.setUserData id none
     let step := ops.readWrite sm
       (mkSubstreamRW rw.now (!(y0.canReceive id)) (!(y0.canSend id)) buf)
     (∀ s', step.2.1 = some s' →
        ∃ ud', inner'.yamux.userData id =
          some (some (s', ud', step.1.incoming_buffer))) ∧
     (step.2.1 = none →
        (step.1.write_bytes_queueable.isNone = false ∨
          y0.canReceive id = true) →
        ∃ sub : YSub (Slot S U),
          inner'.yamux.substreams.lookup id = some sub ∧
          sub.dead = some DeadTy.reset) ∧
     ca = (decide (step.1.read_bytes ≠ 0) ||
           decide (step.1.write_bytes_queued ≠ 0) || evOut.isSome)) := by
  have h0 : inner.yamux.hasSubstream id = true :=
    hasSubstream_of_userData _ _ _ hslot
  unfold processSubstream at hrun
  rw [hslot] at hrun
  dsimp only at hrun
  dsimp only
  generalize hy0 : inner.yamux.setUserData id none = y0 at hrun ⊢
  have h1 : y0.hasSubstream id = true := by
    rw [← hy0, Ymx.hasSubstream_setUserData]
    exact h0
  generalize hstep : ops.readWrite sm
      (mkSubstreamRW rw.now (!(y0.canReceive id)) (!(y0.canSend id)) buf) =
      step at hrun ⊢
  obtain ⟨rwS, next, ev⟩ := step
  dsimp only at hrun ⊢
  rcases hw : writeBuffers (y0.addRemoteWindowSaturating id rwS.read_bytes)
      id rwS.write_buffers with _ | y2
  · rw [hw] at hrun
    exact absurd hrun (by simp)
  · rw [hw] at hrun
    dsimp only at hrun
    have h2 : y2.hasSubstream id = true := by
      rw [hasSubstream_writeBuffers id _ _ _ _ hw,
        Ymx.hasSubstream_addRemoteWindow]
      exact h1
    rcases hcl : (if (!!(y0.canSend id) && rwS.write_bytes_queueable.isNone)
        = true then y2.close id else some y2) with _ | y3
    · rw [hcl] at hrun
      exact absurd hrun (by simp)
    · rw [hcl] at hrun
      dsimp only at hrun
      have h3 : y3.hasSubstream id = true := by
        by_cases hc : (!!(y0.canSend id) &&
            rwS.write_bytes_queueable.isNone) = true
        · rw [if_pos hc] at hcl
          rw [Ymx.hasSubstream_close id hcl id]
          exact h2
        · rw [if_neg hc] at hcl
          obtain rfl := by simpa using hcl
          exact h2
      rcases htr : translateEvent id ud ev with _ | ⟨evT, udT⟩
      · rw [htr] at hrun
        exact absurd hrun (by simp)
      · rw [htr] at hrun
        dsimp only at hrun
        rcases next with _ | s'
        · -- machine terminated
          dsimp only at hrun
          by_cases hrc : (!rwS.write_bytes_queueable.isNone ||
              !!(y0.canReceive id)) = true
          · rw [if_pos hrc] at hrun
            rcases hrs : y3.reset id with _ | y4
            · rw [hrs] at hrun
              exact absurd hrun (by simp)
            · rw [hrs] at hrun
              dsimp only at hrun
              obtain ⟨rfl, rfl, rfl, rfl⟩ := by simpa using hrun
              refine ⟨?_, ?_, by simp [decide_not]⟩
              · intro s'' hs''
                exact absurd hs'' (by simp)
              · intro _ _
                exact Ymx.reset_dead id hrs
          · rw [if_neg hrc] at hrun
            dsimp only at hrun
            obtain ⟨rfl, rfl, rfl, rfl⟩ := by simpa using hrun
            refine ⟨?_, ?_, by simp [decide_not]⟩
            · intro s'' hs''
              exact absurd hs'' (by simp)
            · intro _ hcond
              exact absurd (by
                rcases hcond with hcond | hcond <;>
                  simp [hcond]) hrc
          -- end none case
        · -- machine continues: reinserted
          dsimp only at hrun
          obtain ⟨rfl, rfl, rfl, rfl⟩ := by simpa using hrun
          refine ⟨?_, ?_, by simp [decide_not]⟩
          · intro s'' hs''
            obtain rfl := by simpa using hs''
            exact ⟨udT, Ymx.userData_setUserData_self y3 id _ h3⟩
          · intro hnone _
            exact absurd hnone (by simp)

/-- Witness for C6 on a concrete live substream whose unit machine stays
alive, consumes nothing, writes nothing and emits nothing: `call_again`
is false. -/
theorem c6_process_substream_witness : (false : Bool) =
    (decide ((unitOps.readWrite ()
        (mkSubstreamRW c2RW.now
          (!((w6Inner.yamux.setUserData 3 none).canReceive 3))
          (!((w6Inner.yamux.setUserData 3 none).canSend 3)) [])).1.read_bytes
        ≠ 0) ||
     decide ((unitOps.readWrite ()
        (mkSubstreamRW c2RW.now
          (!((w6Inner.yamux.setUserData 3 none).canReceive 3))
          (!((w6Inner.yamux.setUserData 3 none).canSend 3))
          [])).1.write_bytes_queued ≠ 0) ||
     (none : Option (Event Unit)).isSome) :=
  (c6_process_substream unitOps w6Inner c2RW 3 () none [] rfl
    w6Inner c2RW false none
    (by simp [processSubstream, w6Inner, c2RW, unitOps, mkSubstreamRW,
      writeBuffers, translateEvent, Ymx.userData, Ymx.setUserData,
      Ymx.mapSub, Ymx.canReceive, Ymx.canSend,
      Ymx.addRemoteWindowSaturating, Ymx.hasSubstream, Ymx.close,
      Ymx.reset, satAdd64, List.lookup, USIZEMAX])).2.2

/-! ## C7 -/

/-- C7: `add_request` opens a fresh outbound substream holding a
`request_out` machine with the given parameters, the caller's user data
and an empty read buffer, and extends the peer's flow-control window for
that substream by exactly
`(min(max_response_size, u64::MAX) saturating-add 64) saturating-sub
NEW_SUBSTREAMS_FRAME_SIZE` bytes, the addition to the window itself
saturating. -/
theorem c7_add_request {S U : Type} (ops : SubstreamOps S)
    (inner : Inner S U) (pname : String) (req : Option Bytes)
    (timeout m : Nat) (u : U) (inner' : Inner S U) (s : SubstreamId)
    (h : addRequest ops inner pname req timeout m u = some (inner', s)) :
    s = sid inner.yamux.nextId ∧
    ∃ sub : YSub (Slot S U),
      inner'.yamux.substreams.getLast? = some (inner.yamux.nextId, sub) ∧
      sub.remoteWindow =
        satAdd64 Ymx.INITIAL_WINDOW (addRequestWindowIncrement m) ∧
      sub.ud = some (ops.requestOut pname timeout req m, some u, []) := by
  unfold addRequest Ymx.openSubstream at h
  by_cases hg : inner.yamux.receivedGoawayCode.isSome
  · simp [hg] at h
  · simp only [hg, Bool.false_eq_true, if_false, if_neg] at h
    obtain ⟨rfl, rfl⟩ := by simpa using h
    refine ⟨rfl,
      ⟨{ ud := some (ops.requestOut pname timeout req m, some u, []),
         inbound := false, canReceive := true, canSend := true,
         remoteWindow :=
           satAdd64 Ymx.INITIAL_WINDOW (addRequestWindowIncrement m),
         queuedBytes := 0, dead := none }, ?_, rfl, rfl⟩⟩
    dsimp only
    unfold Ymx.addRemoteWindowSaturating Ymx.mapSub
    dsimp only
    rw [List.map_append]
    simp only [List.map_cons, List.map_nil]
    rw [List.getLast?_concat]
    simp

/-- Witness for C7 at a concrete request with `max_response_size = 5`. -/
theorem c7_add_request_witness :
    (addRequest unitOps w7Inner "p" none 0 5 ()).map
        (fun q => (q.2, q.1.yamux.substreams.getLast?.map
          (fun p => (p.1, p.2.remoteWindow)))) =
      some (sid w7Inner.yamux.nextId,
        some (w7Inner.yamux.nextId,
          satAdd64 Ymx.INITIAL_WINDOW (addRequestWindowIncrement 5))) := by
  rcases hr : addRequest unitOps w7Inner "p" none 0 5 () with _ | q
  · exact absurd hr (by
      simp [addRequest, Ymx.openSubstream, w7Inner, unitOps])
  · obtain ⟨i7, s7⟩ := q
    obtain ⟨hs, sub, hlast, hwin, hud⟩ :=
      c7_add_request unitOps w7Inner "p" none 0 5 () i7 s7 hr
    simp [hs, hlast, hwin]

end Smoldot
